import Mathlib

set_option maxRecDepth 1000000

/-!
Shallow embedding of the riichi-mahjong hand-evaluation engine
(`h1g0/riichi_mahjong_rs`): tile and hand model, hand-string parser,
hand analyzer (shanten search), yaku predicates, yaku aggregation,
fu calculation and scoring, together with theorems checking the
natural-language specification against the code.

Conventions of the embedding:
* machine integers become `Nat`/`Int`; the one place where `u32`
  overflow is reachable takes an explicit `% 2 ^ 32`;
* the mutually recursive in-place search of `hand_analyzer.rs` becomes
  explicit state passing plus a structural fuel argument (the source
  terminates because every nested call removes at least two tiles from
  the 34-entry summary, so the generous fuel chosen below is never
  exhausted on the source's reachable states);
* Rust `panic!`-style failures (out-of-bounds indexing) become `Option`.

`tile.rs`, `hand_info/block.rs` and `hand_info/opened.rs` are not part
of the source snapshot; the corresponding definitions below are
modelled from the specification (§3 "Data model") and are marked as
such in their doc comments.
-/

namespace Mahjong

/-- Modelled from the spec: a tile is identified by an index 0…33
(characters `M1`…`M9` = 0…8, circles 9…17, bamboo 18…26, honors
`Z1`…`Z7` = 27…33). -/
abbrev Tile := Fin 34

/-- Tile indices as numbered in the source (`Tile::M1`, …). -/
abbrev TileType := Nat

/-- `Tile::from`-style constructor: `some` iff the index is in range.
Modelled from the spec (tile indices are 0…33). -/
def mkTile (n : Nat) : Option Tile :=
  if h : n < 34 then some ⟨n, h⟩ else none

/-- Modelled from the spec: winds `Z1`–`Z4` (East, South, West, North). -/
inductive Wind
  | East
  | South
  | West
  | North
  deriving DecidableEq, Repr

/-- Tile index of a wind (`Z1` = 27 … `Z4` = 30). -/
def Wind.tile : Wind → TileType
  | .East => 27
  | .South => 28
  | .West => 29
  | .North => 30

/-- `Wind::is_tile_type`: which wind a tile index denotes, if any.
Modelled from the spec. -/
def Wind.is_tile_type (t : TileType) : Option Wind :=
  if t = 27 then some .East
  else if t = 28 then some .South
  else if t = 29 then some .West
  else if t = 30 then some .North
  else none

/-- Modelled from the spec: dragons `Z5`–`Z7` (White, Green, Red). -/
inductive Dragon
  | White
  | Green
  | Red
  deriving DecidableEq, Repr

/-- Tile index of a dragon (`Z5` = 31, `Z6` = 32, `Z7` = 33). -/
def Dragon.tile : Dragon → TileType
  | .White => 31
  | .Green => 32
  | .Red => 33

/-- `Dragon::is_tile_type`. Modelled from the spec. -/
def Dragon.is_tile_type (t : TileType) : Option Dragon :=
  if t = 31 then some .White
  else if t = 32 then some .Green
  else if t = 33 then some .Red
  else none

/-- Module `hand_info/opened.rs` is absent from the snapshot; modelled
from the spec: a called meld is `Chi` (run), `Pon` (triplet) or `Kan`
(quad). -/
inductive OpenType
  | Chi
  | Pon
  | Kan
  deriving DecidableEq, Repr

/-- Modelled from the spec: which player the claimed tile came from. -/
inductive OpenFrom
  | Myself
  | Left
  | Across
  | Right
  | Unknown
  deriving DecidableEq, Repr

/-- Modelled from the spec: a called meld stores exactly three tiles
(a Kan also stores three), its category and its source. -/
structure OpenTiles where
  tiles : Tile × Tile × Tile
  category : OpenType
  src : OpenFrom
  deriving DecidableEq, Repr

/-- The 34-entry tile-count summary (`TileSummarize`). -/
abbrev TileSummarize := List Nat

/-- Read entry `i` of a summary (out-of-range reads give 0; the source
never performs them). -/
def tget (t : TileSummarize) (i : Nat) : Nat := t.getD i 0

/-- Subtract `n` from entry `i` of a summary (`t[i] -= n`). -/
def tsub (t : TileSummarize) (i n : Nat) : TileSummarize :=
  t.set i (tget t i - n)

/-- `Hand`: concealed tiles, called melds, and the drawn tile. -/
structure Hand where
  tiles : List Tile
  opened : List OpenTiles
  drawn : Option Tile
  deriving DecidableEq, Repr

/-- The three stored tiles of a called meld, as a list. -/
def OpenTiles.tileList (o : OpenTiles) : List Tile :=
  [o.tiles.1, o.tiles.2.1, o.tiles.2.2]

/-- `result[tile] += 1`, the counting step of `summarize_tiles`. -/
def addTileCount (t : TileSummarize) (tl : Tile) : TileSummarize :=
  t.set tl.val (tget t tl.val + 1)

/-- `Hand::summarize_tiles`: count the concealed tiles, then the three
stored tiles of every called meld, then the drawn tile. -/
def Hand.summarize_tiles (h : Hand) : TileSummarize :=
  let base := List.replicate 34 0
  let s1 := h.tiles.foldl addTileCount base
  let s2 := h.opened.foldl (fun t o => o.tileList.foldl addTileCount t) s1
  match h.drawn with
  | some tl => addTileCount s2 tl
  | none => s2

end Mahjong

namespace Mahjong

/-- Digit character of a tile's two-character form (`"1m"`, …). -/
def tileDigitChar (t : Tile) : Char := Char.ofNat (48 + (t.val % 9 + 1))

/-- Suit character of a tile's two-character form. -/
def tileSuitChar (t : Tile) : Char :=
  if t.val / 9 = 0 then 'm'
  else if t.val / 9 = 1 then 'p'
  else if t.val / 9 = 2 then 's'
  else 'z'

/-- `Tile::to_string`: the two-character form, e.g. `"5p"`. -/
def tileStr (t : Tile) : String :=
  String.singleton (tileDigitChar t) ++ String.singleton (tileSuitChar t)

/-- One step of `Hand::str_to_tiles`' character loop: digits are queued,
a suit letter flushes the queue in FIFO order (`8z`/`9z` are dropped). -/
def strToTilesStep (st : List Char × List Tile) (c : Char) : List Char × List Tile :=
  if 49 ≤ c.toNat ∧ c.toNat ≤ 57 then (st.1 ++ [c], st.2)
  else if c = 'm' ∨ c = 'p' ∨ c = 's' ∨ c = 'z' then
    let base : Nat := if c = 'm' then 0 else if c = 'p' then 9 else if c = 's' then 18 else 27
    let tiles := st.1.foldl (fun acc d =>
      let dv := d.toNat - 48
      if (c = 'm' ∨ c = 'p' ∨ c = 's') ∨ (c = 'z' ∧ 1 ≤ dv ∧ dv ≤ 7) then
        match mkTile (base + (dv - 1)) with
        | some t => acc ++ [t]
        | none => acc
      else acc) st.2
    ([], tiles)
  else st

/-- `Hand::str_to_tiles`. -/
def str_to_tiles (s : String) : List Tile :=
  (s.data.foldl strToTilesStep ([], [])).2

/-- Split a character list into maximal runs of non-whitespace
characters (`split_ascii_whitespace`). -/
def splitWsAux : List Char → List Char → List (List Char)
  | [], cur => if cur.isEmpty then [] else [cur.reverse]
  | c :: cs, cur =>
      if c.isWhitespace then
        if cur.isEmpty then splitWsAux cs [] else cur.reverse :: splitWsAux cs []
      else splitWsAux cs (c :: cur)

/-- The whitespace-separated groups of a hand string. -/
def splitWhitespace (s : String) : List String :=
  (splitWsAux s.data []).map String.mk

/-- `Hand::from`: first whitespace-separated group is the concealed
hand; 3-tile groups are Pon/Chi, 4-tile groups Kan (three stored),
1-tile groups the drawn tile. -/
def Hand.fromStr (s : String) : Hand :=
  let groups := splitWhitespace s
  let concealed := str_to_tiles (groups.headD "")
  let rest := groups.tailD []
  let (opened, drawn) := rest.foldl (fun (st : List OpenTiles × Option Tile) g =>
    match str_to_tiles g with
    | [t] => (st.1, some t)
    | [a, b, c] =>
        (st.1 ++ [⟨(a, b, c), if a = b then OpenType.Pon else OpenType.Chi, .Unknown⟩], st.2)
    | [a, b, c, _] => (st.1 ++ [⟨(a, b, c), OpenType.Kan, .Unknown⟩], st.2)
    | _ => st) ([], none)
  { tiles := concealed, opened := opened, drawn := drawn }

/-- The pairwise emission of `make_short_str`'s index loop: for each
consecutive pair emit the left digit plus, on a suit change, the left
suit letter; the final tile emits digit and suit. -/
def msPairs : List Tile → String
  | a :: b :: rest =>
      String.singleton (tileDigitChar a) ++
        (if tileSuitChar b ≠ tileSuitChar a then String.singleton (tileSuitChar a) else "") ++
        msPairs (b :: rest)
  | [a] => String.singleton (tileDigitChar a) ++ String.singleton (tileSuitChar a)
  | [] => ""

/-- `Hand::make_short_str`. The one-element branch of the source reads
`tiles[1]`, an out-of-bounds index that panics; the panic is embedded
as `none`. -/
def make_short_str (tiles : List Tile) : Option String :=
  if tiles.length = 0 then some ""
  else if tiles.length = 1 then none
  else some (msPairs (tiles.insertionSort (fun a b => a.val ≤ b.val)))

/-- `Hand::to_short_string` (`none` models a panic in `make_short_str`). -/
def Hand.to_short_string (h : Hand) : Option String := do
  let s0 ← make_short_str h.tiles
  let s1 ← h.opened.foldlM (fun acc o => do
      let op := o.tileList ++ (if o.category = OpenType.Kan then [o.tiles.1] else [])
      let s ← make_short_str op
      pure (acc ++ " " ++ s)) s0
  pure (s1 ++ (match h.drawn with
    | some t => " " ++ tileStr t
    | none => ""))

example : (Hand.fromStr "123m456p789s1115z 5z").tiles.length = 13 := by decide
example : (Hand.fromStr "123m456p789s1115z 5z").drawn = some ⟨31, by decide⟩ := by decide
example : (Hand.fromStr "123m456p1115z 789s 5z").opened =
    [⟨(⟨24, by decide⟩, ⟨25, by decide⟩, ⟨26, by decide⟩), .Chi, .Unknown⟩] := by decide
example : (Hand.fromStr "123m456p789s1115z 5z").to_short_string =
    some "123m456p789s1115z 5z" := by decide
example : (Hand.fromStr "123m456p789s5z 1111z 5z").to_short_string =
    some "123m456p789s5z 1111z 5z" := by decide

end Mahjong

namespace Mahjong

/-- `Form`: which win-shape grammar an analysis used. -/
inductive Form
  | SevenPairs
  | ThirteenOrphans
  | Normal
  deriving DecidableEq, Repr

/-- `HandAnalyzer`: shanten, chosen form, and the block decomposition.
Blocks are modelled from the spec (`block.rs` is absent): a `same3`
entry `t` is the triplet `(t,t,t)`, a `sequential3` entry `s` the run
`(s,s+1,s+2)`, a `same2` entry `t` the pair `(t,t)`, a `sequential2`
entry `(a,b)` the partial with `b = a+1` or `b = a+2`. -/
structure HandAnalyzer where
  shanten : Int
  form : Form
  same3 : List TileType
  sequential3 : List TileType
  same2 : List TileType
  sequential2 : List (TileType × TileType)
  single : List TileType
  deriving DecidableEq, Repr

/-- `has_won`: the analysis reached shanten −1. -/
def has_won (a : HandAnalyzer) : Bool := a.shanten == -1

/-- `HandAnalyzer::calc_seven_pairs`: count pairs and kinds over the
summary.  The `u32` arithmetic `7 - pair` is embedded as `Int`
arithmetic, which agrees with the release-mode wrap-then-bitcast. -/
def HandAnalyzer.calc_seven_pairs (h : Hand) : HandAnalyzer :=
  let t0 := h.summarize_tiles
  let st := (List.range 34).foldl
    (fun (st : Nat × Nat × TileSummarize × List TileType) i =>
      let (pair, kind, t, same2) := st
      if 0 < tget t i then
        if 2 ≤ tget t i then (pair + 1, kind + 1, tsub t i 2, same2 ++ [i])
        else (pair, kind + 1, t, same2)
      else st) (0, 0, t0, [])
  let (pair, kind, t, same2) := st
  let num_to_win : Int := 7 - (pair : Int) + (if kind < 7 then ((7 - kind : Nat) : Int) else 0)
  -- the source pushes `i` copies of tile `i` here (not `t[i]` copies)
  let single := (List.range 34).foldl
    (fun acc i => if 0 < tget t i then acc ++ List.replicate i i else acc) []
  { shanten := num_to_win - 1, form := .SevenPairs,
    same3 := [], sequential3 := [], same2 := same2, sequential2 := [], single := single }

/-- `HandAnalyzer::calc_thirteen_orphans`. -/
def HandAnalyzer.calc_thirteen_orphans (h : Hand) : HandAnalyzer :=
  let t := h.summarize_tiles
  let toTiles : List Nat := [0, 8, 9, 17, 18, 26, 27, 28, 29, 30, 31, 32, 33]
  let (pair, kind) := toTiles.foldl
    (fun (st : Nat × Nat) i =>
      if 0 < tget t i then
        if 2 ≤ tget t i then (st.1 + 1, st.2 + 1) else (st.1, st.2 + 1)
      else st) (0, 0)
  let num_to_win : Int := 14 - (kind : Int) - (if 0 < pair then 1 else 0)
  { shanten := num_to_win - 1, form := .ThirteenOrphans,
    same3 := [], sequential3 := [], same2 := [], sequential2 := [], single := [] }

/-- One step of `count_independent_same_3`'s loop: peel a triplet of
tile `i` whose run-forming neighbours are absent (honors need only
count ≥ 3). -/
def indSame3Step (st : TileSummarize × List TileType) (i : Nat) :
    TileSummarize × List TileType :=
  let t := st.1
  let cond : Prop :=
    if i < 27 then
      let r := i % 9
      if r = 0 then 3 ≤ tget t i ∧ tget t (i+1) = 0 ∧ tget t (i+2) = 0
      else if r = 1 then
        tget t (i-1) = 0 ∧ 3 ≤ tget t i ∧ tget t (i+1) = 0 ∧ tget t (i+2) = 0
      else if r ≤ 6 then
        tget t (i-2) = 0 ∧ tget t (i-1) = 0 ∧ 3 ≤ tget t i ∧
          tget t (i+1) = 0 ∧ tget t (i+2) = 0
      else if r = 7 then
        tget t (i-2) = 0 ∧ tget t (i-1) = 0 ∧ 3 ≤ tget t i ∧ tget t (i+1) = 0
      else tget t (i-2) = 0 ∧ tget t (i-1) = 0 ∧ 3 ≤ tget t i
    else 3 ≤ tget t i
  if cond then (tsub t i 3, st.2 ++ [i]) else st

/-- `HandAnalyzer::count_independent_same_3` (returns the reduced
summary together with the peeled triplets). -/
def count_independent_same_3 (t : TileSummarize) : TileSummarize × List TileType :=
  (List.range 34).foldl indSame3Step (t, [])

/-- One step of `count_independent_sequential_3`: at multiplicity `n`
(2 then 1) and run start `l = j + k`, peel `n` copies of the run
`l,l+1,l+2` when no adjacent tiles are present and all three counts
equal `n` exactly. -/
def indSeq3Step (st : TileSummarize × List TileType) (p : Nat × Nat × Nat) :
    TileSummarize × List TileType :=
  let (n, j, k) := p
  let t := st.1
  let l := j + k
  let cond : Prop :=
    ¬(2 ≤ k ∧ 0 < tget t (l-2)) ∧ ¬(1 ≤ k ∧ 0 < tget t (l-1)) ∧
    ¬(k ≤ 5 ∧ 0 < tget t (l+3)) ∧ ¬(k ≤ 4 ∧ 0 < tget t (l+4)) ∧
    tget t l = n ∧ tget t (l+1) = n ∧ tget t (l+2) = n
  if cond then
    (tsub (tsub (tsub t l n) (l+1) n) (l+2) n, st.2 ++ List.replicate n l)
  else st

/-- `HandAnalyzer::count_independent_sequential_3`: the count-2 pass
runs before the count-1 pass; suits m, p, s; run starts 1…7. -/
def count_independent_sequential_3 (t : TileSummarize) :
    TileSummarize × List TileType :=
  let passes := [2, 1].flatMap (fun n =>
    [0, 9, 18].flatMap (fun j => (List.range 7).map (fun k => (n, j, k))))
  passes.foldl indSeq3Step (t, [])

/-- One step of `count_independent_single`'s loop. -/
def indSingleStep (st : TileSummarize × List TileType) (i : Nat) :
    TileSummarize × List TileType :=
  let t := st.1
  let cond : Prop :=
    if i < 27 then
      let r := i % 9
      if r = 0 then tget t i = 1 ∧ tget t (i+1) = 0 ∧ tget t (i+2) = 0
      else if r = 1 then
        tget t (i-1) = 0 ∧ tget t i = 1 ∧ tget t (i+1) = 0 ∧ tget t (i+2) = 0
      else if r ≤ 6 then
        tget t (i-2) = 0 ∧ tget t (i-1) = 0 ∧ tget t i = 1 ∧
          tget t (i+1) = 0 ∧ tget t (i+2) = 0
      else if r = 7 then
        tget t (i-2) = 0 ∧ tget t (i-1) = 0 ∧ tget t i = 1 ∧ tget t (i+1) = 0
      else tget t (i-2) = 0 ∧ tget t (i-1) = 0 ∧ tget t i = 1
    else tget t i = 1
  if cond then (tsub t i 1, st.2 ++ [i]) else st

/-- `HandAnalyzer::count_independent_single`. -/
def count_independent_single (t : TileSummarize) : TileSummarize × List TileType :=
  (List.range 34).foldl indSingleStep (t, [])

end Mahjong

namespace Mahjong

/-- Mutable state of the recursive normal-form search: the summary and
the four current block stacks (`same3`, `sequential3`, `same2`,
`sequential2`). -/
structure St where
  smry : TileSummarize
  s3 : List TileType
  q3 : List TileType
  s2 : List TileType
  q2 : List (TileType × TileType)
  deriving DecidableEq, Repr

/-- Result registers of the search: the minimum shanten found and the
copied block lists plus leftover singles. -/
structure Acc where
  sh : Int
  rs3 : List TileType
  rq3 : List TileType
  rs2 : List TileType
  rq2 : List (TileType × TileType)
  rsingle : List TileType
  deriving DecidableEq, Repr

/-- `calc_normal_shanten`: `8 − 2·(#3-blocks) − (#2-blocks)`, counting
the `nInd` independent 3-blocks peeled before the recursion. -/
def calc_normal_shanten (nInd : Nat) (st : St) : Int :=
  8 - 2 * ((nInd + st.s3.length + st.q3.length : Nat) : Int)
    - ((st.s2.length + st.q2.length : Nat) : Int)

/-- Rebuild the leftover singles from the current summary (the loop at
the end of `count_normal_shanten_recursively`'s update). -/
def singlesOf (t : TileSummarize) : List TileType :=
  (List.range 34).foldl (fun acc i => acc ++ List.replicate (tget t i) i) []

/-- Tile `i` can start a run: suited 1…7 (`M1..=M7`, `P1..=P7`,
`S1..=S7`). -/
def suited7 (i : Nat) : Prop := i ≤ 6 ∨ (9 ≤ i ∧ i ≤ 15) ∨ (18 ≤ i ∧ i ≤ 24)

instance (i : Nat) : Decidable (suited7 i) := by unfold suited7; infer_instance

/-- Which piece of the mutually recursive search is executing:
`call idx` is `count_normal_shanten_recursively`, `loop3 idx i` the
33-iteration loop of `count_same_or_sequential_3` at index `i`, and
`loop2 idx i` the loop of `count_same_or_sequential_2`.  The extra
`gas` field counts the remaining loop iterations. -/
inductive SMode
  | call (idx : Nat)
  | loop3 (idx i gas : Nat)
  | loop2 (idx i gas : Nat)
  deriving DecidableEq, Repr

/-- Triplet extraction: `same3.push`, `summary[i] -= 3`. -/
def pushS3 (st : St) (i : Nat) : St :=
  { st with smry := tsub st.smry i 3, s3 := st.s3 ++ [i] }

/-- Run extraction: `sequential3.push`, decrement `i`, `i+1`, `i+2`. -/
def pushQ3 (st : St) (i : Nat) : St :=
  let sm := tsub (tsub (tsub st.smry i 1) (i+1) 1) (i+2) 1
  { st with smry := sm, q3 := st.q3 ++ [i] }

/-- Pair extraction: `same2.push`, `summary[i] -= 2`. -/
def pushS2 (st : St) (i : Nat) : St :=
  { st with smry := tsub st.smry i 2, s2 := st.s2 ++ [i] }

/-- Two-sided/edge partial extraction: `sequential2.push (i, i+1)`. -/
def pushQ2a (st : St) (i : Nat) : St :=
  { st with smry := tsub (tsub st.smry i 1) (i+1) 1, q2 := st.q2 ++ [(i, i+1)] }

/-- Closed partial (kanchan) extraction: `sequential2.push (i, i+2)`. -/
def pushQ2k (st : St) (i : Nat) : St :=
  { st with smry := tsub (tsub st.smry i 1) (i+2) 1, q2 := st.q2 ++ [(i, i+2)] }

/-- The leaf of `count_normal_shanten_recursively`: compare the current
decomposition's shanten with the minimum and copy the registers on
improvement, rebuilding the singles from the summary. -/
def leafStep (nInd : Nat) (st : St) (acc : Acc) : Acc :=
  let sh := calc_normal_shanten nInd st
  if sh < acc.sh then
    { sh := sh, rs3 := st.s3, rq3 := st.q3, rs2 := st.s2, rq2 := st.q2,
      rsingle := singlesOf st.smry }
  else acc

/-- The recursive normal-form search
(`count_normal_shanten_recursively` and its two loops), with a
structural fuel argument.  Every nested call of the source removes at
least two tiles from the summary, so the fuel passed by
`calc_normal_form` is never exhausted; fuel 0 returns the registers
unchanged. -/
def normal_search : Nat → SMode → Nat → St → Acc → Acc
  | 0, _, _, _, acc => acc
  | f + 1, .call idx, nInd, st, acc =>
      let a1 := normal_search f (.loop3 idx idx 34) nInd st acc
      let a2 := normal_search f (.loop2 idx idx 34) nInd st a1
      leafStep nInd st a2
  | f + 1, .loop3 idx i gas, nInd, st, acc =>
      match gas with
      | 0 => acc
      | g + 1 =>
        -- triplet extraction (advances the cursor to `i`)
        let a1 :=
          if 3 ≤ tget st.smry i then
            normal_search f (.call i) nInd (pushS3 st i) acc
          else acc
        -- run extraction (advances the cursor to `i`)
        let a2 :=
          if suited7 i ∧ 1 ≤ tget st.smry i ∧ 1 ≤ tget st.smry (i+1) ∧
              1 ≤ tget st.smry (i+2) then
            normal_search f (.call i) nInd (pushQ3 st i) a1
          else a1
        normal_search f (.loop3 idx (i+1) g) nInd st a2
  | f + 1, .loop2 idx i gas, nInd, st, acc =>
      match gas with
      | 0 => acc
      | g + 1 =>
        -- pair (count exactly 2; reuses the caller's cursor `idx`)
        let a1 :=
          if tget st.smry i = 2 then
            normal_search f (.call idx) nInd (pushS2 st i) acc
          else acc
        let a2 :=
          if suited7 i then
            -- two-sided/edge partial
            let b1 :=
              if 1 ≤ tget st.smry i ∧ 1 ≤ tget st.smry (i+1) then
                normal_search f (.call idx) nInd (pushQ2a st i) a1
              else a1
            -- closed partial (kanchan)
            if 1 ≤ tget st.smry i ∧ tget st.smry (i+1) = 0 ∧
                1 ≤ tget st.smry (i+2) then
              normal_search f (.call idx) nInd (pushQ2k st i) b1
            else b1
          else a1
        normal_search f (.loop2 idx (i+1) g) nInd st a2

/-- `HandAnalyzer::calc_normal_form`: peel independent blocks, try
every pair as the head (then no head), and run the recursive search. -/
def HandAnalyzer.calc_normal_form (h : Hand) : HandAnalyzer :=
  let t0 := h.summarize_tiles
  let p1 := count_independent_same_3 t0
  let t1 := p1.1
  let ind3 := p1.2
  let p2 := count_independent_sequential_3 t1
  let t2 := p2.1
  let indq3 := p2.2
  let p3 := count_independent_single t2
  let t3 := p3.1
  let indS := p3.2
  let nInd := ind3.length + indq3.length
  let fuel := 40 * (t0.sum + 2)
  let acc0 : Acc := ⟨100, [], [], [], [], []⟩
  let acc1 := (List.range 34).foldl (fun acc i =>
      if 2 ≤ tget t3 i then
        normal_search fuel (.call 0) nInd (pushS2 ⟨t3, [], [], [], []⟩ i) acc
      else acc) acc0
  let acc2 := normal_search fuel (.call 0) nInd ⟨t3, [], [], [], []⟩ acc1
  { shanten := acc2.sh, form := .Normal,
    same3 := acc2.rs3 ++ ind3, sequential3 := acc2.rq3 ++ indq3,
    same2 := acc2.rs2, sequential2 := acc2.rq2, single := acc2.rsingle ++ indS }

/-- `HandAnalyzer::new_by_form`. -/
def HandAnalyzer.new_by_form (h : Hand) : Form → HandAnalyzer
  | .SevenPairs => HandAnalyzer.calc_seven_pairs h
  | .ThirteenOrphans => HandAnalyzer.calc_thirteen_orphans h
  | .Normal => HandAnalyzer.calc_normal_form h

/-- Rust `std::cmp::min` on `HandAnalyzer` (ordered by shanten only;
returns the first argument on ties). -/
def haMin (a b : HandAnalyzer) : HandAnalyzer :=
  if b.shanten < a.shanten then b else a

/-- `HandAnalyzer::new`: if the Normal grammar reaches −1 return the
Normal analysis, otherwise the minimum of the three. -/
def HandAnalyzer.new (h : Hand) : HandAnalyzer :=
  let sp := HandAnalyzer.calc_seven_pairs h
  let tor := HandAnalyzer.calc_thirteen_orphans h
  let normal := HandAnalyzer.calc_normal_form h
  if normal.shanten = -1 then normal
  else haMin (haMin sp tor) normal

end Mahjong

namespace Mahjong

/-- `Lang`: display language. -/
inductive Lang
  | En
  | Ja
  deriving DecidableEq, Repr

/-- `Settings`: display language and the open-tanyao rule toggle. -/
structure Settings where
  display_lang : Lang
  opened_all_simples : Bool
  deriving DecidableEq, Repr

/-- `Settings::new`: Japanese display, open tanyao allowed. -/
def Settings.new : Settings := { display_lang := .Ja, opened_all_simples := true }

/-- `Status`: the context flags of the round. -/
structure Status where
  has_claimed_ready : Bool
  has_claimed_open : Bool
  is_self_picked : Bool
  is_one_shot : Bool
  player_wind : Wind
  prevailing_wind : Wind
  is_last_tile_from_the_wall : Bool
  is_last_discard : Bool
  is_dead_wall_draw : Bool
  is_robbing_a_quad : Bool
  is_double_ready : Bool
  is_dealer : Bool
  is_first_turn : Bool
  is_nagashi_mangan : Bool
  kan_count : Nat
  deriving DecidableEq, Repr

/-- `Status::new`: all flags false, both winds East, no kans. -/
def Status.new : Status :=
  { has_claimed_ready := false, has_claimed_open := false,
    is_self_picked := false, is_one_shot := false,
    player_wind := .East, prevailing_wind := .East,
    is_last_tile_from_the_wall := false, is_last_discard := false,
    is_dead_wall_draw := false, is_robbing_a_quad := false,
    is_double_ready := false, is_dealer := false, is_first_turn := false,
    is_nagashi_mangan := false, kan_count := 0 }

/-- `is_two_sided_wait` (`status.rs`): the given tile extends a
two-sided shape in `counts` without forming an edge 123/789 wait. -/
def is_two_sided_wait (tile : TileType) (counts : TileSummarize) : Bool :=
  if ¬(tile ≤ 26) then false
  else
    let offset := tile % 9 + 1
    if 3 ≤ offset ∧ 0 < tget counts (tile - 1) ∧ 0 < tget counts (tile - 2) ∧
        offset ≠ 3 ∧ offset ≠ 9 then true
    else if offset ≤ 7 ∧ 0 < tget counts (tile + 1) ∧ 0 < tget counts (tile + 2) ∧
        offset ≠ 1 ∧ offset ≠ 7 then true
    else false

/-- `Kind`: the 42 yaku recognised by the checker. -/
inductive Kind
  | ReadyHand
  | SevenPairs
  | NagashiMangan
  | SelfPick
  | OneShot
  | LastTileFromTheWall
  | LastDiscard
  | DeadWallDraw
  | RobbingAQuad
  | DoubleReady
  | NoPointsHand
  | OneSetOfIdenticalSequences
  | ThreeColorStraight
  | Straight
  | TwoSetsOfIdenticalSequences
  | AllTripletHand
  | ThreeClosedTriplets
  | ThreeColorTriplets
  | AllSimples
  | HonorTilesPlayersWind
  | HonorTilesPrevailingWind
  | HonorTilesWhiteDragon
  | HonorTilesGreenDragon
  | HonorTilesRedDragon
  | TerminalOrHonorInEachSet
  | TerminalInEachSet
  | AllTerminalsAndHonors
  | LittleThreeDragons
  | HalfFlush
  | Flush
  | ThirteenOrphans
  | FourConcealedTriplets
  | BigThreeDragons
  | LittleFourWinds
  | BigFourWinds
  | AllHonors
  | AllTerminals
  | AllGreen
  | NineGates
  | FourKans
  | HeavenlyHand
  | HandOfEarth
  deriving DecidableEq, Repr

/-- `Kind::iter()`'s enumeration order. -/
def kindsList : List Kind :=
  [.ReadyHand, .SevenPairs, .NagashiMangan, .SelfPick, .OneShot,
   .LastTileFromTheWall, .LastDiscard, .DeadWallDraw, .RobbingAQuad,
   .DoubleReady, .NoPointsHand, .OneSetOfIdenticalSequences,
   .ThreeColorStraight, .Straight, .TwoSetsOfIdenticalSequences,
   .AllTripletHand, .ThreeClosedTriplets, .ThreeColorTriplets, .AllSimples,
   .HonorTilesPlayersWind, .HonorTilesPrevailingWind, .HonorTilesWhiteDragon,
   .HonorTilesGreenDragon, .HonorTilesRedDragon, .TerminalOrHonorInEachSet,
   .TerminalInEachSet, .AllTerminalsAndHonors, .LittleThreeDragons,
   .HalfFlush, .Flush, .ThirteenOrphans, .FourConcealedTriplets,
   .BigThreeDragons, .LittleFourWinds, .BigFourWinds, .AllHonors,
   .AllTerminals, .AllGreen, .NineGates, .FourKans, .HeavenlyHand,
   .HandOfEarth]

/-- `openned_name!`: append the open-hand marker when the yaku has an
open-hand reduction. -/
def openedName (s : String) (opened : Bool) (lang : Lang) : String :=
  if opened then
    match lang with
    | .En => s ++ " (Open)"
    | .Ja => s ++ "（鳴）"
  else s

/-- `get_en` (`winning_hand/name.rs`). -/
def get_en (k : Kind) (opened : Bool) : String :=
  match k with
  | .ReadyHand => "Ready Hand"
  | .SevenPairs => "Seven Pairs"
  | .NagashiMangan => "Nagashi Mangan"
  | .SelfPick => "Self Pick"
  | .OneShot => "One Shot"
  | .LastTileFromTheWall => "Last Tile From The Wall"
  | .LastDiscard => "Last Discard"
  | .DeadWallDraw => "Dead Wall Draw"
  | .RobbingAQuad => "Robbing A Quad"
  | .DoubleReady => "Double Ready"
  | .NoPointsHand => "No Points Hand"
  | .OneSetOfIdenticalSequences => "One Set Of Identical Sequences"
  | .ThreeColorStraight => openedName "Three Color Straight" opened .En
  | .Straight => openedName "Straight" opened .En
  | .TwoSetsOfIdenticalSequences => "Two Sets Of Identical Sequences"
  | .AllTripletHand => "All Triplet Hand"
  | .ThreeClosedTriplets => "Three Closed Triplets"
  | .ThreeColorTriplets => "Three Color Triplets"
  | .AllSimples => "All Simples"
  | .HonorTilesPlayersWind => "Honor Tiles (Players Wind)"
  | .HonorTilesPrevailingWind => "Honor Tiles (Prevailing Wind)"
  | .HonorTilesWhiteDragon => "Honor Tiles (White Dragon)"
  | .HonorTilesGreenDragon => "Honor Tiles (Green Dragon)"
  | .HonorTilesRedDragon => "Honor Tiles (Red Dragon)"
  | .TerminalOrHonorInEachSet => openedName "Terminal Or Honor In Each Set" opened .En
  | .TerminalInEachSet => openedName "Terminal In Each Set" opened .En
  | .AllTerminalsAndHonors => "All Terminals And Honors"
  | .LittleThreeDragons => "Little Three Dragons"
  | .HalfFlush => openedName "Half Flush" opened .En
  | .Flush => openedName "Flush" opened .En
  | .ThirteenOrphans => "Thirteen Orphans"
  | .FourConcealedTriplets => "Four Concealed Triplets"
  | .BigThreeDragons => "Big Three Dragons"
  | .LittleFourWinds => "Little Four Winds"
  | .BigFourWinds => "Big Four Winds"
  | .AllHonors => "All Honors"
  | .AllTerminals => "All Terminals"
  | .AllGreen => "All Green"
  | .NineGates => "Nine Gates"
  | .FourKans => "Four Kans"
  | .HeavenlyHand => "Heavenly Hand"
  | .HandOfEarth => "Hand Of Earth"

/-- `get_ja` (`winning_hand/name.rs`). -/
def get_ja (k : Kind) (opened : Bool) : String :=
  match k with
  | .ReadyHand => "立直"
  | .SevenPairs => "七対子"
  | .NagashiMangan => "流し満貫"
  | .SelfPick => "門前清自摸和"
  | .OneShot => "一発"
  | .LastTileFromTheWall => "海底撈月"
  | .LastDiscard => "河底撈魚"
  | .DeadWallDraw => "嶺上開花"
  | .RobbingAQuad => "搶槓"
  | .DoubleReady => "ダブル立直"
  | .NoPointsHand => "平和"
  | .OneSetOfIdenticalSequences => "一盃口"
  | .ThreeColorStraight => openedName "三色同順" opened .Ja
  | .Straight => openedName "一気通貫" opened .Ja
  | .TwoSetsOfIdenticalSequences => "二盃口"
  | .AllTripletHand => "対々和"
  | .ThreeClosedTriplets => "三暗刻"
  | .ThreeColorTriplets => "三色同刻"
  | .AllSimples => "断么九"
  | .HonorTilesPlayersWind => "役牌（自風牌）"
  | .HonorTilesPrevailingWind => "役牌（場風牌）"
  | .HonorTilesWhiteDragon => "役牌（白）"
  | .HonorTilesGreenDragon => "役牌（發）"
  | .HonorTilesRedDragon => "役牌（中）"
  | .TerminalOrHonorInEachSet => openedName "混全帯么九" opened .Ja
  | .TerminalInEachSet => openedName "純全帯么九" opened .Ja
  | .AllTerminalsAndHonors => "混老頭"
  | .LittleThreeDragons => "小三元"
  | .HalfFlush => openedName "混一色" opened .Ja
  | .Flush => openedName "清一色" opened .Ja
  | .ThirteenOrphans => "国士無双"
  | .FourConcealedTriplets => "四暗刻"
  | .BigThreeDragons => "大三元"
  | .LittleFourWinds => "小四喜"
  | .BigFourWinds => "大四喜"
  | .AllHonors => "字一色"
  | .AllTerminals => "清老頭"
  | .AllGreen => "緑一色"
  | .NineGates => "九蓮宝燈"
  | .FourKans => "四槓子"
  | .HeavenlyHand => "天和"
  | .HandOfEarth => "地和"

/-- `get` (`winning_hand/name.rs`): yaku display name. -/
def getName (k : Kind) (opened : Bool) (lang : Lang) : String :=
  match lang with
  | .En => get_en k opened
  | .Ja => get_ja k opened

end Mahjong

namespace Mahjong

/-- `BlockProperty::has_1_or_9` for a one-tile block (triplet/pair).
Modelled from the spec's block queries. -/
def isTerm19 (t : TileType) : Bool :=
  decide (t = 0 ∨ t = 8 ∨ t = 9 ∨ t = 17 ∨ t = 18 ∨ t = 26)

/-- `BlockProperty::has_honor` for a one-tile block. -/
def isHonorT (t : TileType) : Bool := decide (27 ≤ t)

/-- `has_1_or_9` of the run `s, s+1, s+2`. -/
def seq3Has19 (s : TileType) : Bool := isTerm19 s || isTerm19 (s+1) || isTerm19 (s+2)

/-- `is_character` of a one-tile block. -/
def isCharT (t : TileType) : Bool := decide (t ≤ 8)

/-- `is_circle` of a one-tile block. -/
def isCircleT (t : TileType) : Bool := decide (9 ≤ t ∧ t ≤ 17)

/-- `is_bamboo` of a one-tile block. -/
def isBambooT (t : TileType) : Bool := decide (18 ≤ t ∧ t ≤ 26)

/-- `is_character` of the run `s, s+1, s+2`. -/
def seq3IsChar (s : TileType) : Bool := decide (s + 2 ≤ 8)

/-- `is_circle` of the run `s, s+1, s+2`. -/
def seq3IsCircle (s : TileType) : Bool := decide (9 ≤ s ∧ s + 2 ≤ 17)

/-- `is_bamboo` of the run `s, s+1, s+2`. -/
def seq3IsBamboo (s : TileType) : Bool := decide (18 ≤ s ∧ s + 2 ≤ 26)

/-- `has_dragon(White) || has_dragon(Green) || has_dragon(Red)`. -/
def isDragonT (t : TileType) : Bool := decide (t = 31 ∨ t = 32 ∨ t = 33)

/-- `has_wind` for any of the four winds. -/
def isWindT (t : TileType) : Bool := decide (27 ≤ t ∧ t ≤ 30)

/-- All index-ordered pairs of a list (the `i < j` double loop). -/
def allPairs : List α → List (α × α)
  | [] => []
  | x :: xs => xs.map (fun y => (x, y)) ++ allPairs xs

/-- All index-ordered triples of a list (the `i < j < k` triple loop). -/
def allTriples : List α → List (α × α × α)
  | [] => []
  | x :: xs => (allPairs xs).map (fun p => (x, p.1, p.2)) ++ allTriples xs

/-- The check functions all return `(display name, matched, han)`. -/
abbrev YakuResult := String × Bool × Nat

/-- `check_ready_hand` (立直). -/
def check_ready_hand (a : HandAnalyzer) (status : Status) (settings : Settings) :
    YakuResult :=
  let name := getName .ReadyHand status.has_claimed_open settings.display_lang
  if has_won a = false then (name, false, 0)
  else if status.has_claimed_open then (name, false, 0)
  else if status.has_claimed_ready then (name, true, 1)
  else (name, false, 0)

/-- `check_self_pick` (門前清自摸和). -/
def check_self_pick (a : HandAnalyzer) (status : Status) (settings : Settings) :
    YakuResult :=
  let name := getName .SelfPick status.has_claimed_open settings.display_lang
  if has_won a = false then (name, false, 0)
  else if status.has_claimed_open = false ∧ status.is_self_picked then (name, true, 1)
  else (name, false, 0)

/-- `check_one_shot` (一発): requires the ready-hand predicate. -/
def check_one_shot (a : HandAnalyzer) (status : Status) (settings : Settings) :
    YakuResult :=
  let name := getName .OneShot status.has_claimed_open settings.display_lang
  if has_won a = false then (name, false, 0)
  else if (check_ready_hand a status settings).2.1 = false then (name, false, 0)
  else if status.is_one_shot then (name, true, 1)
  else (name, false, 0)

/-- `check_last_tile_from_the_wall` (海底撈月). -/
def check_last_tile_from_the_wall (a : HandAnalyzer) (status : Status)
    (settings : Settings) : YakuResult :=
  let name := getName .LastTileFromTheWall status.has_claimed_open settings.display_lang
  if has_won a = false then (name, false, 0)
  else if status.is_last_tile_from_the_wall ∧ status.is_self_picked then (name, true, 1)
  else (name, false, 0)

/-- `check_last_discard` (河底撈魚). -/
def check_last_discard (a : HandAnalyzer) (status : Status) (settings : Settings) :
    YakuResult :=
  let name := getName .LastDiscard status.has_claimed_open settings.display_lang
  if has_won a = false then (name, false, 0)
  else if status.is_last_discard ∧ status.is_self_picked = false then (name, true, 1)
  else (name, false, 0)

/-- `check_dead_wall_draw` (嶺上開花). -/
def check_dead_wall_draw (a : HandAnalyzer) (status : Status) (settings : Settings) :
    YakuResult :=
  let name := getName .DeadWallDraw status.has_claimed_open settings.display_lang
  if has_won a = false then (name, false, 0)
  else if status.is_dead_wall_draw ∧ status.is_self_picked then (name, true, 1)
  else (name, false, 0)

/-- `check_robbing_a_quad` (搶槓). -/
def check_robbing_a_quad (a : HandAnalyzer) (status : Status) (settings : Settings) :
    YakuResult :=
  let name := getName .RobbingAQuad status.has_claimed_open settings.display_lang
  if has_won a = false then (name, false, 0)
  else if status.is_robbing_a_quad ∧ status.is_self_picked = false then (name, true, 1)
  else (name, false, 0)

/-- `check_double_ready` (ダブル立直, 2 han). -/
def check_double_ready (a : HandAnalyzer) (status : Status) (settings : Settings) :
    YakuResult :=
  let name := getName .DoubleReady status.has_claimed_open settings.display_lang
  if has_won a = false then (name, false, 0)
  else if status.has_claimed_open then (name, false, 0)
  else if status.is_double_ready ∧ status.has_claimed_ready then (name, true, 2)
  else (name, false, 0)

/-- Is the pair tile a yakuhai for this status (dragon, player wind, or
prevailing wind)?  Mirrors the head loop of `check_no_points_hand`. -/
def headIsYakuhai (t : TileType) (status : Status) : Bool :=
  isDragonT t || decide (t = Wind.tile status.player_wind) ||
    decide (t = Wind.tile status.prevailing_wind)

/-- `check_no_points_hand` (平和) as defined in `check_1_han.rs`: four
runs plus one non-yakuhai pair in a concealed winning hand.  The
function does not receive the hand and performs no wait-shape check. -/
def check_no_points_hand (a : HandAnalyzer) (status : Status) (settings : Settings) :
    YakuResult :=
  let name := getName .NoPointsHand status.has_claimed_open settings.display_lang
  if has_won a = false then (name, false, 0)
  else if status.has_claimed_open then (name, false, 0)
  else if a.sequential3.length ≠ 4 ∨ a.same2.length ≠ 1 then (name, false, 0)
  else if a.same2.any (fun head => headIsYakuhai head status) then (name, false, 0)
  else (name, true, 1)

/-- `check_one_set_of_identical_sequences` (一盃口). -/
def check_one_set_of_identical_sequences (a : HandAnalyzer) (status : Status)
    (settings : Settings) : YakuResult :=
  let name := getName .OneSetOfIdenticalSequences status.has_claimed_open
    settings.display_lang
  if has_won a = false then (name, false, 0)
  else if status.has_claimed_open then (name, false, 0)
  else if a.sequential3.length < 2 then (name, false, 0)
  else if (allPairs a.sequential3).any (fun p => p.1 == p.2) then (name, true, 1)
  else (name, false, 0)

/-- `check_all_simples` (断么九). -/
def check_all_simples (a : HandAnalyzer) (status : Status) (settings : Settings) :
    YakuResult :=
  let name := getName .AllSimples status.has_claimed_open settings.display_lang
  if has_won a = false then (name, false, 0)
  else if settings.opened_all_simples = false ∧ status.has_claimed_open then
    (name, false, 0)
  else
    let has19honor := a.same3.any (fun t => isTerm19 t || isHonorT t) ||
      a.sequential3.any seq3Has19 ||
      a.same2.any (fun t => isTerm19 t || isHonorT t)
    if has19honor then (name, false, 0) else (name, true, 1)

/-- `check_honor_tiles_players_wind` (役牌・自風牌). -/
def check_honor_tiles_players_wind (a : HandAnalyzer) (status : Status)
    (settings : Settings) : YakuResult :=
  let name := getName .HonorTilesPlayersWind status.has_claimed_open
    settings.display_lang
  if has_won a = false then (name, false, 0)
  else if a.same3.any (fun t => t == Wind.tile status.player_wind) then (name, true, 1)
  else (name, false, 0)

/-- `check_honor_tiles_prevailing_wind` (役牌・場風牌). -/
def check_honor_tiles_prevailing_wind (a : HandAnalyzer) (status : Status)
    (settings : Settings) : YakuResult :=
  let name := getName .HonorTilesPrevailingWind status.has_claimed_open
    settings.display_lang
  if has_won a = false then (name, false, 0)
  else if a.same3.any (fun t => t == Wind.tile status.prevailing_wind) then
    (name, true, 1)
  else (name, false, 0)

/-- `check_honor_tiles_dragons`: a triplet of the given dragon exists. -/
def check_honor_tiles_dragons (a : HandAnalyzer) (d : Dragon) : Bool :=
  if has_won a = false then false
  else a.same3.any (fun t => t == Dragon.tile d)

/-- `check_honor_tiles_white_dragon` (役牌・白). -/
def check_honor_tiles_white_dragon (a : HandAnalyzer) (status : Status)
    (settings : Settings) : YakuResult :=
  let name := getName .HonorTilesWhiteDragon status.has_claimed_open
    settings.display_lang
  if check_honor_tiles_dragons a .White then (name, true, 1) else (name, false, 0)

/-- `check_honor_tiles_green_dragon` (役牌・發). -/
def check_honor_tiles_green_dragon (a : HandAnalyzer) (status : Status)
    (settings : Settings) : YakuResult :=
  let name := getName .HonorTilesGreenDragon status.has_claimed_open
    settings.display_lang
  if check_honor_tiles_dragons a .Green then (name, true, 1) else (name, false, 0)

/-- `check_honor_tiles_red_dragon` (役牌・中). -/
def check_honor_tiles_red_dragon (a : HandAnalyzer) (status : Status)
    (settings : Settings) : YakuResult :=
  let name := getName .HonorTilesRedDragon status.has_claimed_open
    settings.display_lang
  if check_honor_tiles_dragons a .Red then (name, true, 1) else (name, false, 0)

end Mahjong

namespace Mahjong

/-- `check_seven_pairs` (七対子, 2 han flat). -/
def check_seven_pairs (a : HandAnalyzer) (status : Status) (settings : Settings) :
    YakuResult :=
  let name := getName .SevenPairs status.has_claimed_open settings.display_lang
  if has_won a = false then (name, false, 0)
  else if a.form = .SevenPairs then (name, true, 2)
  else (name, false, 0)

/-- `check_three_color_straight` (三色同順): three runs with the same
start number in the three distinct suited suits. -/
def check_three_color_straight (a : HandAnalyzer) (status : Status)
    (settings : Settings) : YakuResult :=
  let name := getName .ThreeColorStraight status.has_claimed_open settings.display_lang
  if has_won a = false then (name, false, 0)
  else if a.sequential3.length < 3 then (name, false, 0)
  else if (allTriples a.sequential3).any (fun p =>
      let (x, y, z) := p
      decide (x % 9 = y % 9 ∧ y % 9 = z % 9 ∧
        x / 9 ≠ y / 9 ∧ y / 9 ≠ z / 9 ∧ x / 9 ≠ z / 9 ∧
        x / 9 < 3 ∧ y / 9 < 3 ∧ z / 9 < 3)) then
    if status.has_claimed_open then (name, true, 1) else (name, true, 2)
  else (name, false, 0)

/-- `check_straight` (一気通貫): runs 1–3, 4–6, 7–9 in one suit. -/
def check_straight (a : HandAnalyzer) (status : Status) (settings : Settings) :
    YakuResult :=
  let name := getName .Straight status.has_claimed_open settings.display_lang
  if has_won a = false then (name, false, 0)
  else
    let hasRun := fun (s : TileType) => a.sequential3.any (fun v => v == s)
    if (hasRun 0 && hasRun 3 && hasRun 6) || (hasRun 9 && hasRun 12 && hasRun 15) ||
        (hasRun 18 && hasRun 21 && hasRun 24) then
      if status.has_claimed_open then (name, true, 1) else (name, true, 2)
    else (name, false, 0)

/-- `check_all_triplet_hand` (対々和). -/
def check_all_triplet_hand (a : HandAnalyzer) (status : Status) (settings : Settings) :
    YakuResult :=
  let name := getName .AllTripletHand status.has_claimed_open settings.display_lang
  if has_won a = false then (name, false, 0)
  else if a.same3.length = 4 ∧ a.same2.length = 1 then (name, true, 2)
  else (name, false, 0)

/-- `check_three_closed_triplets` (三暗刻): at least three triplets in
`same3`. -/
def check_three_closed_triplets (a : HandAnalyzer) (status : Status)
    (settings : Settings) : YakuResult :=
  let name := getName .ThreeClosedTriplets status.has_claimed_open settings.display_lang
  if has_won a = false then (name, false, 0)
  else if 3 ≤ a.same3.length then (name, true, 2)
  else (name, false, 0)

/-- `check_three_color_triplets` (三色同刻). -/
def check_three_color_triplets (a : HandAnalyzer) (status : Status)
    (settings : Settings) : YakuResult :=
  let name := getName .ThreeColorTriplets status.has_claimed_open settings.display_lang
  if has_won a = false then (name, false, 0)
  else if a.same3.length < 3 then (name, false, 0)
  else if (allTriples a.same3).any (fun p =>
      let (x, y, z) := p
      decide (x ≤ 26 ∧ y ≤ 26 ∧ z ≤ 26 ∧ x % 9 = y % 9 ∧ y % 9 = z % 9 ∧
        x / 9 ≠ y / 9 ∧ y / 9 ≠ z / 9 ∧ x / 9 ≠ z / 9)) then
    (name, true, 2)
  else (name, false, 0)

/-- `check_terminal_or_honor_in_each_set` (混全帯么九). -/
def check_terminal_or_honor_in_each_set (a : HandAnalyzer) (status : Status)
    (settings : Settings) : YakuResult :=
  let name := getName .TerminalOrHonorInEachSet status.has_claimed_open
    settings.display_lang
  if has_won a = false then (name, false, 0)
  else if a.sequential3.length = 0 then (name, false, 0)
  else
    let no19honor := a.same3.any (fun t => !(isTerm19 t) && !(isHonorT t)) ||
      a.sequential3.any (fun s => !(seq3Has19 s)) ||
      a.same2.any (fun t => !(isTerm19 t) && !(isHonorT t))
    let hasHonor := a.same3.any isHonorT || a.same2.any isHonorT
    if no19honor || !hasHonor then (name, false, 0)
    else if status.has_claimed_open then (name, true, 1)
    else (name, true, 2)

/-- One block step of `check_all_terminals_and_honors`' loops: state is
(saw honor, saw terminal, early-return hit). -/
def athStep (st : Bool × Bool × Bool) (t : TileType) : Bool × Bool × Bool :=
  if st.2.2 then st
  else if isHonorT t then (true, st.2.1, false)
  else if isTerm19 t then (st.1, true, false)
  else (st.1, st.2.1, true)

/-- `check_all_terminals_and_honors` (混老頭). -/
def check_all_terminals_and_honors (a : HandAnalyzer) (status : Status)
    (settings : Settings) : YakuResult :=
  let name := getName .AllTerminalsAndHonors status.has_claimed_open
    settings.display_lang
  if has_won a = false then (name, false, 0)
  else if 0 < a.sequential3.length then (name, false, 0)
  else
    let st := (a.same3 ++ a.same2).foldl athStep (false, false, false)
    if st.2.2 then (name, false, 0)
    else if st.1 ∧ st.2.1 then (name, true, 2)
    else (name, false, 0)

/-- `check_little_three_dragons` (小三元). -/
def check_little_three_dragons (a : HandAnalyzer) (status : Status)
    (settings : Settings) : YakuResult :=
  let name := getName .LittleThreeDragons status.has_claimed_open settings.display_lang
  if has_won a = false then (name, false, 0)
  else if (a.same3.filter isDragonT).length = 2 ∧ a.same2.any isDragonT then
    (name, true, 2)
  else (name, false, 0)

/-- The greedy used-flag pairing of `check_two_sets_of_identical_sequences`
on the four runs, in the source's scan order. -/
def gpc4 (w x y z : TileType) : Nat :=
  if w = x then (if y = z then 2 else 1)
  else if w = y then (if x = z then 2 else 1)
  else if w = z then (if x = y then 2 else 1)
  else if x = y then 1
  else if x = z then 1
  else if y = z then 1
  else 0

/-- `check_two_sets_of_identical_sequences` (二盃口, 3 han). -/
def check_two_sets_of_identical_sequences (a : HandAnalyzer) (status : Status)
    (settings : Settings) : YakuResult :=
  let name := getName .TwoSetsOfIdenticalSequences status.has_claimed_open
    settings.display_lang
  if has_won a = false then (name, false, 0)
  else if status.has_claimed_open then (name, false, 0)
  else if a.sequential3.length ≠ 4 then (name, false, 0)
  else
    match a.sequential3 with
    | [w, x, y, z] => if gpc4 w x y z = 2 then (name, true, 3) else (name, false, 0)
    | _ => (name, false, 0)

/-- `check_terminal_in_each_set` (純全帯么九). -/
def check_terminal_in_each_set (a : HandAnalyzer) (status : Status)
    (settings : Settings) : YakuResult :=
  let name := getName .TerminalInEachSet status.has_claimed_open settings.display_lang
  if has_won a = false then (name, false, 0)
  else if a.sequential3.length = 0 then (name, false, 0)
  else
    let no19 := a.same3.any (fun t => !(isTerm19 t)) ||
      a.sequential3.any (fun s => !(seq3Has19 s)) ||
      a.same2.any (fun t => !(isTerm19 t))
    if no19 then (name, false, 0)
    else if status.has_claimed_open then (name, true, 2)
    else (name, true, 3)

/-- Suit flags (honor, character, circle, bamboo) of an analysis, as
accumulated by `check_half_flush` / `check_flush` / `check_nine_gates`. -/
def suitFlags (a : HandAnalyzer) : Bool × Bool × Bool × Bool :=
  let hasHonor := a.same3.any isHonorT || a.same2.any isHonorT
  let hasChar := a.same3.any isCharT || a.sequential3.any seq3IsChar ||
    a.same2.any isCharT
  let hasCircle := a.same3.any isCircleT || a.sequential3.any seq3IsCircle ||
    a.same2.any isCircleT
  let hasBamboo := a.same3.any isBambooT || a.sequential3.any seq3IsBamboo ||
    a.same2.any isBambooT
  (hasHonor, hasChar, hasCircle, hasBamboo)

/-- Number of suited suits present. -/
def suitCount (f : Bool × Bool × Bool × Bool) : Nat :=
  ([f.2.1, f.2.2.1, f.2.2.2].filter (fun b => b)).length

/-- `check_half_flush` (混一色). -/
def check_half_flush (a : HandAnalyzer) (status : Status) (settings : Settings) :
    YakuResult :=
  let name := getName .HalfFlush status.has_claimed_open settings.display_lang
  if has_won a = false then (name, false, 0)
  else
    let f := suitFlags a
    if f.1 = false then (name, false, 0)
    else if suitCount f ≠ 1 then (name, false, 0)
    else if status.has_claimed_open then (name, true, 2)
    else (name, true, 3)

/-- `check_flush` (清一色). -/
def check_flush (a : HandAnalyzer) (status : Status) (settings : Settings) :
    YakuResult :=
  let name := getName .Flush status.has_claimed_open settings.display_lang
  if has_won a = false then (name, false, 0)
  else
    let f := suitFlags a
    if f.1 then (name, false, 0)
    else if suitCount f ≠ 1 then (name, false, 0)
    else if status.has_claimed_open then (name, true, 5)
    else (name, true, 6)

/-- `check_nagashi_mangan` (流し満貫, flag only, 5 han). -/
def check_nagashi_mangan (a : HandAnalyzer) (status : Status) (settings : Settings) :
    YakuResult :=
  let name := getName .NagashiMangan status.has_claimed_open settings.display_lang
  if has_won a = false then (name, false, 0)
  else if status.is_nagashi_mangan then (name, true, 5)
  else (name, false, 0)

end Mahjong

namespace Mahjong

/-- `check_thirteen_orphans` (国士無双, yakuman). -/
def check_thirteen_orphans (a : HandAnalyzer) (status : Status) (settings : Settings) :
    YakuResult :=
  let name := getName .ThirteenOrphans status.has_claimed_open settings.display_lang
  if has_won a = false then (name, false, 0)
  else if a.form = .ThirteenOrphans then (name, true, 13)
  else (name, false, 0)

/-- `check_four_concealed_triplets` (四暗刻). -/
def check_four_concealed_triplets (a : HandAnalyzer) (status : Status)
    (settings : Settings) : YakuResult :=
  let name := getName .FourConcealedTriplets status.has_claimed_open
    settings.display_lang
  if has_won a = false then (name, false, 0)
  else if status.has_claimed_open = false ∧ a.same3.length = 4 ∧
      status.is_self_picked then (name, true, 13)
  else (name, false, 0)

/-- `check_big_three_dragons` (大三元). -/
def check_big_three_dragons (a : HandAnalyzer) (status : Status)
    (settings : Settings) : YakuResult :=
  let name := getName .BigThreeDragons status.has_claimed_open settings.display_lang
  if has_won a = false then (name, false, 0)
  else if (a.same3.filter isDragonT).length = 3 then (name, true, 13)
  else (name, false, 0)

/-- `check_little_four_winds` (小四喜). -/
def check_little_four_winds (a : HandAnalyzer) (status : Status)
    (settings : Settings) : YakuResult :=
  let name := getName .LittleFourWinds status.has_claimed_open settings.display_lang
  if has_won a = false then (name, false, 0)
  else if (a.same3.filter isWindT).length = 3 ∧ a.same2.any isWindT then
    (name, true, 13)
  else (name, false, 0)

/-- `check_big_four_winds` (大四喜). -/
def check_big_four_winds (a : HandAnalyzer) (status : Status) (settings : Settings) :
    YakuResult :=
  let name := getName .BigFourWinds status.has_claimed_open settings.display_lang
  if has_won a = false then (name, false, 0)
  else if (a.same3.filter isWindT).length = 4 then (name, true, 13)
  else (name, false, 0)

/-- `check_all_honors` (字一色). -/
def check_all_honors (a : HandAnalyzer) (status : Status) (settings : Settings) :
    YakuResult :=
  let name := getName .AllHonors status.has_claimed_open settings.display_lang
  if has_won a = false then (name, false, 0)
  else if a.same3.any (fun t => !(isHonorT t)) then (name, false, 0)
  else if a.same2.any (fun t => !(isHonorT t)) then (name, false, 0)
  else if 0 < a.sequential3.length then (name, false, 0)
  -- the source re-checks the pairs when the form is SevenPairs
  else if a.form = .SevenPairs ∧ a.same2.any (fun t => !(isHonorT t)) then
    (name, false, 0)
  else (name, true, 13)

/-- `check_all_terminals` (清老頭). -/
def check_all_terminals (a : HandAnalyzer) (status : Status) (settings : Settings) :
    YakuResult :=
  let name := getName .AllTerminals status.has_claimed_open settings.display_lang
  if has_won a = false then (name, false, 0)
  else if 0 < a.sequential3.length then (name, false, 0)
  else if a.same3.any (fun t => !(isTerm19 t) || isHonorT t) then (name, false, 0)
  else if a.same2.any (fun t => !(isTerm19 t) || isHonorT t) then (name, false, 0)
  else (name, true, 13)

/-- Green tile (`2s 3s 4s 6s 8s 6z`). -/
def isGreenT (t : TileType) : Bool :=
  decide (t = 19 ∨ t = 20 ∨ t = 21 ∨ t = 23 ∨ t = 25 ∨ t = 32)

/-- `check_all_green` (緑一色). -/
def check_all_green (a : HandAnalyzer) (status : Status) (settings : Settings) :
    YakuResult :=
  let name := getName .AllGreen status.has_claimed_open settings.display_lang
  if has_won a = false then (name, false, 0)
  else if a.same3.any (fun t => !(isGreenT t)) then (name, false, 0)
  else if a.sequential3.any (fun s =>
      !(isGreenT s) || !(isGreenT (s+1)) || !(isGreenT (s+2))) then (name, false, 0)
  else if a.same2.any (fun t => !(isGreenT t)) then (name, false, 0)
  else (name, true, 13)

/-- The 9-entry per-number tile counts of `check_nine_gates`. -/
def nineGatesCounts (a : HandAnalyzer) (offset : Nat) : List Nat :=
  let c0 : List Nat := List.replicate 9 0
  let c1 := a.same3.foldl (fun c t => c.set (t - offset) (tget c (t - offset) + 3)) c0
  let c2 := a.sequential3.foldl (fun c s =>
    let c := c.set (s - offset) (tget c (s - offset) + 1)
    let c := c.set (s + 1 - offset) (tget c (s + 1 - offset) + 1)
    c.set (s + 2 - offset) (tget c (s + 2 - offset) + 1)) c1
  let c3 := a.same2.foldl (fun c t => c.set (t - offset) (tget c (t - offset) + 2)) c2
  a.single.foldl (fun c s =>
    if offset ≤ s ∧ s < offset + 9 then c.set (s - offset) (tget c (s - offset) + 1)
    else c) c3

/-- `check_nine_gates` (九蓮宝燈). -/
def check_nine_gates (a : HandAnalyzer) (status : Status) (settings : Settings) :
    YakuResult :=
  let name := getName .NineGates status.has_claimed_open settings.display_lang
  if has_won a = false then (name, false, 0)
  else if status.has_claimed_open then (name, false, 0)
  else
    let f := suitFlags a
    if f.1 then (name, false, 0)
    else if suitCount f ≠ 1 then (name, false, 0)
    else
      let offset := if f.2.1 then 0 else if f.2.2.1 then 9 else 18
      let c := nineGatesCounts a offset
      if 3 ≤ tget c 0 ∧ 3 ≤ tget c 8 ∧ 1 ≤ tget c 1 ∧ 1 ≤ tget c 2 ∧
          1 ≤ tget c 3 ∧ 1 ≤ tget c 4 ∧ 1 ≤ tget c 5 ∧ 1 ≤ tget c 6 ∧
          1 ≤ tget c 7 ∧ c.sum = 14 then (name, true, 13)
      else (name, false, 0)

/-- `check_four_kans` (四槓子, from the kan-count flag). -/
def check_four_kans (a : HandAnalyzer) (status : Status) (settings : Settings) :
    YakuResult :=
  let name := getName .FourKans status.has_claimed_open settings.display_lang
  if has_won a = false then (name, false, 0)
  else if status.kan_count = 4 then (name, true, 13)
  else (name, false, 0)

/-- `check_heavenly_hand` (天和). -/
def check_heavenly_hand (a : HandAnalyzer) (status : Status) (settings : Settings) :
    YakuResult :=
  let name := getName .HeavenlyHand status.has_claimed_open settings.display_lang
  if has_won a = false then (name, false, 0)
  else if status.is_dealer ∧ status.is_first_turn ∧ status.is_self_picked ∧
      status.has_claimed_open = false then (name, true, 13)
  else (name, false, 0)

/-- `check_hand_of_earth` (地和). -/
def check_hand_of_earth (a : HandAnalyzer) (status : Status) (settings : Settings) :
    YakuResult :=
  let name := getName .HandOfEarth status.has_claimed_open settings.display_lang
  if has_won a = false then (name, false, 0)
  else if status.is_dealer = false ∧ status.is_first_turn ∧ status.is_self_picked ∧
      status.has_claimed_open = false then (name, true, 13)
  else (name, false, 0)

/-- Dispatch to the predicate for one yaku kind, as inserted in
`checker::check`. -/
def check_one (k : Kind) (a : HandAnalyzer) (status : Status) (settings : Settings) :
    YakuResult :=
  match k with
  | .ReadyHand => check_ready_hand a status settings
  | .SevenPairs => check_seven_pairs a status settings
  | .NagashiMangan => check_nagashi_mangan a status settings
  | .SelfPick => check_self_pick a status settings
  | .OneShot => check_one_shot a status settings
  | .LastTileFromTheWall => check_last_tile_from_the_wall a status settings
  | .LastDiscard => check_last_discard a status settings
  | .DeadWallDraw => check_dead_wall_draw a status settings
  | .RobbingAQuad => check_robbing_a_quad a status settings
  | .DoubleReady => check_double_ready a status settings
  | .NoPointsHand => check_no_points_hand a status settings
  | .OneSetOfIdenticalSequences => check_one_set_of_identical_sequences a status settings
  | .ThreeColorStraight => check_three_color_straight a status settings
  | .Straight => check_straight a status settings
  | .TwoSetsOfIdenticalSequences => check_two_sets_of_identical_sequences a status settings
  | .AllTripletHand => check_all_triplet_hand a status settings
  | .ThreeClosedTriplets => check_three_closed_triplets a status settings
  | .ThreeColorTriplets => check_three_color_triplets a status settings
  | .AllSimples => check_all_simples a status settings
  | .HonorTilesPlayersWind => check_honor_tiles_players_wind a status settings
  | .HonorTilesPrevailingWind => check_honor_tiles_prevailing_wind a status settings
  | .HonorTilesWhiteDragon => check_honor_tiles_white_dragon a status settings
  | .HonorTilesGreenDragon => check_honor_tiles_green_dragon a status settings
  | .HonorTilesRedDragon => check_honor_tiles_red_dragon a status settings
  | .TerminalOrHonorInEachSet => check_terminal_or_honor_in_each_set a status settings
  | .TerminalInEachSet => check_terminal_in_each_set a status settings
  | .AllTerminalsAndHonors => check_all_terminals_and_honors a status settings
  | .LittleThreeDragons => check_little_three_dragons a status settings
  | .HalfFlush => check_half_flush a status settings
  | .Flush => check_flush a status settings
  | .ThirteenOrphans => check_thirteen_orphans a status settings
  | .FourConcealedTriplets => check_four_concealed_triplets a status settings
  | .BigThreeDragons => check_big_three_dragons a status settings
  | .LittleFourWinds => check_little_four_winds a status settings
  | .BigFourWinds => check_big_four_winds a status settings
  | .AllHonors => check_all_honors a status settings
  | .AllTerminals => check_all_terminals a status settings
  | .AllGreen => check_all_green a status settings
  | .NineGates => check_nine_gates a status settings
  | .FourKans => check_four_kans a status settings
  | .HeavenlyHand => check_heavenly_hand a status settings
  | .HandOfEarth => check_hand_of_earth a status settings

/-- `checker::check`: every kind's predicate result (the map's values,
in enum order). -/
def checkAll (a : HandAnalyzer) (status : Status) (settings : Settings) :
    List YakuResult :=
  kindsList.map (fun k => check_one k a status settings)

/-- Lexicographic strict order on character lists by code point; on
UTF-8 data this is exactly Rust's byte-wise `str` ordering. -/
def charListLt : List Char → List Char → Bool
  | [], [] => false
  | [], _ :: _ => true
  | _ :: _, [] => false
  | a :: as, b :: bs =>
      if a.toNat < b.toNat then true
      else if b.toNat < a.toNat then false
      else charListLt as bs

/-- `a ≤ b` for strings in Rust's `Ord` sense (`¬ b < a`). -/
def strLe (a b : String) : Bool := !(charListLt b.data a.data)

/-- The comparator order of `extract_yaku_list`'s sort: descending han,
ties by ascending name. -/
def yakuLe (p q : String × Nat) : Prop :=
  q.2 < p.2 ∨ (p.2 = q.2 ∧ strLe p.1 q.1 = true)

instance : DecidableRel yakuLe := fun p q => by unfold yakuLe; infer_instance

/-- `extract_yaku_list` (`scoring/score.rs`): keep matched entries with
positive han, drop non-yakuman entries when a yakuman matched, and sort
by descending han then ascending name. -/
def extract_yaku_list (m : List YakuResult) : List (String × Nat) :=
  let hasYakuman := m.any (fun e => e.2.1 && decide (13 ≤ e.2.2))
  let list := m.filterMap (fun e =>
    if e.2.1 = true ∧ 0 < e.2.2 ∧ ¬(hasYakuman = true ∧ e.2.2 < 13) then
      some (e.1, e.2.2)
    else none)
  list.insertionSort yakuLe

end Mahjong

namespace Mahjong

/-- Fu breakdown entry (`FuDetail`): name and value. -/
abbrev FuDetail := String × Nat

/-- `FuResult`: rounded total and itemized breakdown. -/
structure FuResult where
  total : Nat
  details : List FuDetail
  deriving DecidableEq, Repr

/-- `round_up_to_10`. -/
def round_up_to_10 (fu : Nat) : Nat := (fu + 9) / 10 * 10

/-- `is_yakuhai_tile` (`scoring/fu.rs`). -/
def is_yakuhai_tile (t : TileType) (status : Status) : Bool :=
  if (Dragon.is_tile_type t).isSome then true
  else if Wind.is_tile_type t = some status.player_wind then true
  else if Wind.is_tile_type t = some status.prevailing_wind then true
  else false

/-- `is_pinfu` (`scoring/fu.rs`): concealed Normal-form hand of four
runs plus a non-yakuhai pair whose winning tile sits at a non-edge end
of some run. -/
def is_pinfu (a : HandAnalyzer) (h : Hand) (status : Status) : Bool :=
  if status.has_claimed_open then false
  else if a.form ≠ .Normal then false
  else if a.sequential3.length ≠ 4 ∨ a.same2.length ≠ 1 then false
  else if a.same2.any (fun head => is_yakuhai_tile head status) then false
  else
    match h.drawn with
    | some wt =>
        a.sequential3.any (fun s =>
          (wt.val == s && decide (s % 9 ≠ 6)) ||
          (wt.val == s + 2 && decide ((s + 2) % 9 ≠ 2)))
    | none => false

/-- Terminal-or-honor test of `scoring/fu.rs` (`is_terminal_or_honor`). -/
def fuTerminalOrHonor (t : TileType) : Bool :=
  decide (t = 0 ∨ t = 8 ∨ t = 9 ∨ t = 17 ∨ t = 18 ∨ t = 26 ∨ (27 ≤ t ∧ t ≤ 33))

/-- `calculate_mentsu_fu`: fu of the triplets in `same3` (skipping
tiles already counted as called melds, and demoting the winning
triplet to open on a ron) followed by the fu of the called melds. -/
def calculate_mentsu_fu (a : HandAnalyzer) (h : Hand) (status : Status) :
    List FuDetail :=
  let openedTripletTiles := (h.opened.filter (fun o =>
    o.category == OpenType.Pon || o.category == OpenType.Kan)).map
    (fun o => o.tiles.1.val)
  let concealedPart := a.same3.foldl (fun acc t =>
    if openedTripletTiles.contains t then acc
    else
      let isTH := fuTerminalOrHonor t
      let isConcealed :=
        if status.is_self_picked = false then
          match h.drawn with
          | some drawn => drawn.val ≠ t
          | none => true
        else true
      let fu := if isConcealed then (if isTH then 8 else 4)
        else (if isTH then 4 else 2)
      let nm := if isConcealed then (if isTH then "么九牌暗刻" else "中張牌暗刻")
        else (if isTH then "么九牌明刻" else "中張牌明刻")
      acc ++ [(nm, fu)]) []
  let openPart := h.opened.foldl (fun acc o =>
    match o.category with
    | .Pon =>
        let isTH := fuTerminalOrHonor o.tiles.1.val
        acc ++ [(if isTH then "么九牌明刻" else "中張牌明刻", if isTH then 4 else 2)]
    | .Kan =>
        let isTH := fuTerminalOrHonor o.tiles.1.val
        let isConcealed := o.src == OpenFrom.Myself
        let fu := if isConcealed then (if isTH then 32 else 16)
          else (if isTH then 16 else 8)
        let nm := if isConcealed then (if isTH then "么九牌暗槓" else "中張牌暗槓")
          else (if isTH then "么九牌明槓" else "中張牌明槓")
        acc ++ [(nm, fu)]
    | .Chi => acc) []
  concealedPart ++ openPart

/-- `calculate_jantou_fu`: 2 fu per yakuhai quality of the pair
(double wind stacks). -/
def calculate_jantou_fu (a : HandAnalyzer) (status : Status) : List FuDetail :=
  a.same2.foldl (fun acc t =>
    let acc := if (Dragon.is_tile_type t).isSome then acc ++ [("三元牌雀頭", 2)] else acc
    let acc := if Wind.is_tile_type t = some status.player_wind then
      acc ++ [("自風牌雀頭", 2)] else acc
    if Wind.is_tile_type t = some status.prevailing_wind then
      acc ++ [("場風牌雀頭", 2)] else acc) []

/-- The run scan of `calculate_machi_fu`: first run claiming the
winning tile as a closed (middle) or edge wait. -/
def machiSeqScan (wt : Nat) : List TileType → Option FuDetail
  | [] => none
  | s :: rest =>
      if wt = s + 1 then some ("嵌張待ち", 2)
      else if wt = s + 2 ∧ (s + 2) % 9 = 2 then some ("辺張待ち", 2)
      else if wt = s ∧ s % 9 = 6 then some ("辺張待ち", 2)
      else machiSeqScan wt rest

/-- `calculate_machi_fu`: 2 fu for a single-tile, closed, or edge wait. -/
def calculate_machi_fu (a : HandAnalyzer) (h : Hand) : List FuDetail :=
  match h.drawn with
  | some wt =>
      if a.same2.any (fun head => head == wt.val) then [("単騎待ち", 2)]
      else
        match machiSeqScan wt.val a.sequential3 with
        | some d => [d]
        | none => []
  | none => []

/-- `calculate_tsumo_fu`: 2 fu on a self-pick. -/
def calculate_tsumo_fu (status : Status) : List FuDetail :=
  if status.is_self_picked then [("自摸", 2)] else []

/-- `calculate_menzen_ron_fu`: 10 fu on a concealed ron. -/
def calculate_menzen_ron_fu (status : Status) : List FuDetail :=
  if status.has_claimed_open = false ∧ status.is_self_picked = false then
    [("門前加符", 10)]
  else []

/-- The itemized fu breakdown accumulated by `calculate_fu` before
rounding (base 20, melds, pair, wait, tsumo, concealed-ron bonus). -/
def fu_details (a : HandAnalyzer) (h : Hand) (status : Status) : List FuDetail :=
  [("副底", 20)] ++ calculate_mentsu_fu a h status ++ calculate_jantou_fu a status ++
    calculate_machi_fu a h ++ calculate_tsumo_fu status ++ calculate_menzen_ron_fu status

/-- `calculate_fu` (`scoring/fu.rs`). -/
def calculate_fu (a : HandAnalyzer) (h : Hand) (status : Status) : FuResult :=
  if a.form = .SevenPairs then ⟨25, [("七対子", 25)]⟩
  else if a.form = .ThirteenOrphans then ⟨30, [("国士無双", 30)]⟩
  else
    let details := fu_details a h status
    let rawTotal := (details.map (fun d => d.2)).sum
    if is_pinfu a h status ∧ status.is_self_picked then ⟨20, [("平和ツモ", 20)]⟩
    else
      let total :=
        if rawTotal = 20 ∧ status.is_self_picked = false ∧ status.has_claimed_open then 30
        else round_up_to_10 rawTotal
      ⟨total, details⟩

/-- `ScoreRank`. -/
inductive ScoreRank
  | Normal
  | Mangan
  | Haneman
  | Baiman
  | Sanbaiman
  | Yakuman
  deriving DecidableEq, Repr

/-- `determine_rank` (`scoring/score.rs`). -/
def determine_rank (han fu : Nat) (hasYakuman : Bool) : ScoreRank :=
  if hasYakuman ∨ 13 ≤ han then .Yakuman
  else if 11 ≤ han then .Sanbaiman
  else if 8 ≤ han then .Baiman
  else if 6 ≤ han then .Haneman
  else if 5 ≤ han then .Mangan
  else if han = 4 ∧ 30 ≤ fu then .Mangan
  else if han = 3 ∧ 60 ≤ fu then .Mangan
  else .Normal

/-- `calculate_base_points`: the `u32` product `fu * (1 << (han + 2))`
is taken mod `2 ^ 32` (release-mode wrap), then capped at 2000. -/
def calculate_base_points (han fu : Nat) (rank : ScoreRank) : Nat :=
  match rank with
  | .Yakuman => 8000
  | .Sanbaiman => 6000
  | .Baiman => 4000
  | .Haneman => 3000
  | .Mangan => 2000
  | .Normal =>
      if 2000 < (fu * 2 ^ (han + 2)) % 2 ^ 32 then 2000
      else (fu * 2 ^ (han + 2)) % 2 ^ 32

/-- `round_up_to_100`. -/
def round_up_to_100 (points : Nat) : Nat := (points + 99) / 100 * 100

/-- `ScoreResult`. -/
structure ScoreResult where
  han : Nat
  fu : Nat
  rank : ScoreRank
  dealer_ron : Nat
  dealer_tsumo_all : Nat
  non_dealer_ron : Nat
  non_dealer_tsumo_dealer : Nat
  non_dealer_tsumo_non_dealer : Nat
  yaku_list : List (String × Nat)
  fu_result : FuResult
  deriving DecidableEq, Repr

/-- `calculate_score` (`scoring/score.rs`): `none` when no yaku
matched. -/
def calculate_score (a : HandAnalyzer) (h : Hand) (status : Status)
    (settings : Settings) : Option ScoreResult :=
  let yakuList := extract_yaku_list (checkAll a status settings)
  if yakuList.isEmpty then none
  else
    let han := (yakuList.map (fun e => e.2)).sum
    let hasYakuman := yakuList.any (fun e => decide (13 ≤ e.2))
    let fuResult := calculate_fu a h status
    let fu := fuResult.total
    let rank := determine_rank han fu hasYakuman
    let basePoints := calculate_base_points han fu rank
    some {
      han := han, fu := fu, rank := rank,
      dealer_ron := round_up_to_100 (basePoints * 6),
      dealer_tsumo_all := round_up_to_100 (basePoints * 2),
      non_dealer_ron := round_up_to_100 (basePoints * 4),
      non_dealer_tsumo_dealer := round_up_to_100 (basePoints * 2),
      non_dealer_tsumo_non_dealer := round_up_to_100 basePoints,
      yaku_list := yakuList, fu_result := fuResult }

end Mahjong

namespace Mahjong

/-- C8: the scorer's base points never exceed 8000; each rank row of
the table matches `determine_rank` and its flat base points; the
`Normal` rank holds exactly outside the yakuman/limit rows; and an
overflow-free `Normal` computation is `fu · 2^(han+2)` capped at 2000. -/
theorem claim_C8 : ∀ (han fu : Nat) (ym : Bool),
    calculate_base_points han fu (determine_rank han fu ym) ≤ 8000 ∧
    ((ym = true ∨ 13 ≤ han) → determine_rank han fu ym = .Yakuman ∧
      calculate_base_points han fu .Yakuman = 8000) ∧
    (ym = false → 11 ≤ han → han ≤ 12 → determine_rank han fu ym = .Sanbaiman ∧
      calculate_base_points han fu .Sanbaiman = 6000) ∧
    (ym = false → 8 ≤ han → han ≤ 10 → determine_rank han fu ym = .Baiman ∧
      calculate_base_points han fu .Baiman = 4000) ∧
    (ym = false → 6 ≤ han → han ≤ 7 → determine_rank han fu ym = .Haneman ∧
      calculate_base_points han fu .Haneman = 3000) ∧
    (ym = false → (han = 5 ∨ (han = 4 ∧ 30 ≤ fu) ∨ (han = 3 ∧ 60 ≤ fu)) →
      determine_rank han fu ym = .Mangan ∧
      calculate_base_points han fu .Mangan = 2000) ∧
    (determine_rank han fu ym = .Normal ↔
      (ym = false ∧ han ≤ 4 ∧ ¬(han = 4 ∧ 30 ≤ fu) ∧ ¬(han = 3 ∧ 60 ≤ fu))) ∧
    (determine_rank han fu ym = .Normal → fu * 2 ^ (han + 2) < 2 ^ 32 →
      calculate_base_points han fu (determine_rank han fu ym) =
        min (fu * 2 ^ (han + 2)) 2000) := by
  intro han fu ym
  have hbp : ∀ r, calculate_base_points han fu r ≤ 8000 := by
    intro r
    cases r
    case Normal => simp only [calculate_base_points]; split_ifs <;> omega
    all_goals simp [calculate_base_points]
  refine ⟨hbp _, ?_, ?_, ?_, ?_, ?_, ?_, ?_⟩
  · intro hy
    refine ⟨?_, rfl⟩
    unfold determine_rank
    rcases hy with hy | hy <;> simp [hy]
  · intro hy h1 h2
    subst hy
    refine ⟨?_, rfl⟩
    unfold determine_rank
    split_ifs <;> simp_all
    omega
  · intro hy h1 h2
    subst hy
    refine ⟨?_, rfl⟩
    unfold determine_rank
    split_ifs <;> simp_all <;> omega
  · intro hy h1 h2
    subst hy
    refine ⟨?_, rfl⟩
    unfold determine_rank
    split_ifs <;> simp_all <;> omega
  · intro hy h1
    subst hy
    refine ⟨?_, rfl⟩
    unfold determine_rank
    split_ifs <;> simp_all <;> omega
  · unfold determine_rank
    cases ym <;> split_ifs <;> simp_all <;> omega
  · intro hn hov
    rw [hn]
    simp only [calculate_base_points]
    rw [Nat.mod_eq_of_lt hov]
    split_ifs <;> omega

/-- Witness for C8 at `han = 2`, `fu = 30`, no yakuman. -/
theorem claim_C8_witness :
    determine_rank 2 30 false = .Normal ∧
    calculate_base_points 2 30 (determine_rank 2 30 false) = min (30 * 2 ^ (2 + 2)) 2000 ∧
    determine_rank 13 30 false = .Yakuman := by
  refine ⟨?_, ?_, ?_⟩
  · exact ((claim_C8 2 30 false).2.2.2.2.2.2.1).mpr (by decide)
  · exact (claim_C8 2 30 false).2.2.2.2.2.2.2 (by decide) (by decide)
  · exact ((claim_C8 13 30 false).2.1 (by decide)).1

end Mahjong

namespace Mahjong

theorem tget_cons_succ (x : Nat) (xs : List Nat) (n : Nat) :
    tget (x :: xs) (n + 1) = tget xs n := rfl

theorem sum_set_succ : ∀ (t : List Nat) (i : Nat), i < t.length →
    (t.set i (tget t i + 1)).sum = t.sum + 1 := by
  intro t
  induction t with
  | nil => intro i h; simp at h
  | cons x xs ih =>
      intro i h
      cases i with
      | zero => simp [tget, List.getD]; omega
      | succ n =>
          have hn : n < xs.length := by simpa using h
          simp only [tget_cons_succ, List.set, List.sum_cons]
          rw [ih n hn]
          omega

theorem addTileCount_length {t : TileSummarize} (tl : Tile) (ht : t.length = 34) :
    (addTileCount t tl).length = 34 := by
  simp [addTileCount, ht]

theorem addTileCount_sum {t : TileSummarize} (tl : Tile) (ht : t.length = 34) :
    (addTileCount t tl).sum = t.sum + 1 := by
  apply sum_set_succ
  rw [ht]
  exact tl.isLt

theorem foldl_addTileCount (ts : List Tile) : ∀ (t : TileSummarize), t.length = 34 →
    (ts.foldl addTileCount t).length = 34 ∧
    (ts.foldl addTileCount t).sum = t.sum + ts.length := by
  induction ts with
  | nil => intro t ht; simp [ht]
  | cons a as ih =>
      intro t ht
      have h1 := addTileCount_length a ht
      have h2 := addTileCount_sum a ht
      have h3 := ih (addTileCount t a) h1
      refine ⟨h3.1, ?_⟩
      simp only [List.foldl_cons, List.length_cons]
      rw [h3.2, h2]
      omega

theorem foldl_addMeld (os : List OpenTiles) : ∀ (t : TileSummarize), t.length = 34 →
    (os.foldl (fun t o => o.tileList.foldl addTileCount t) t).length = 34 ∧
    (os.foldl (fun t o => o.tileList.foldl addTileCount t) t).sum =
      t.sum + 3 * os.length := by
  induction os with
  | nil => intro t ht; simp [ht]
  | cons o os ih =>
      intro t ht
      have h1 := foldl_addTileCount o.tileList t ht
      have h2 := ih (o.tileList.foldl addTileCount t) h1.1
      refine ⟨h2.1, ?_⟩
      simp only [List.foldl_cons, List.length_cons]
      rw [h2.2, h1.2]
      simp [OpenTiles.tileList]
      ring

/-- C4 counterexample: for the hand `"123m456p789s55z 1111z 5z"` (11
concealed tiles, one called Kan, one drawn tile) the summary total is
15, not the 11 + 4·1 + 1 = 16 the claim demands — `summarize_tiles`
counts only the three stored tiles of a Kan. -/
theorem claim_C4_counterexample :
    ((Hand.fromStr "123m456p789s55z 1111z 5z").summarize_tiles).sum = 15 ∧
    (Hand.fromStr "123m456p789s55z 1111z 5z").tiles.length = 11 ∧
    ((Hand.fromStr "123m456p789s55z 1111z 5z").opened.filter
      (fun o => o.category == OpenType.Kan)).length = 1 ∧
    ((Hand.fromStr "123m456p789s55z 1111z 5z").opened.filter
      (fun o => o.category == OpenType.Pon || o.category == OpenType.Chi)).length = 0 ∧
    (Hand.fromStr "123m456p789s55z 1111z 5z").drawn.isSome = true ∧
    (15 : Nat) ≠ 11 + 3 * 0 + 4 * 1 + 1 := by
  decide

/-- C4 (amended): the summary total is the concealed count plus 3 per
called meld — including Kan, which stores and contributes only three
tiles — plus 1 for a drawn tile. -/
theorem claim_C4 : ∀ h : Hand,
    (Hand.summarize_tiles h).sum =
      h.tiles.length + 3 * h.opened.length +
        (if h.drawn.isSome then 1 else 0) := by
  intro h
  unfold Hand.summarize_tiles
  have hbase : (List.replicate 34 (0 : Nat)).length = 34 := by simp
  have hbsum : (List.replicate 34 (0 : Nat)).sum = 0 := by simp
  have h1 := foldl_addTileCount h.tiles _ hbase
  have h2 := foldl_addMeld h.opened _ h1.1
  cases hd : h.drawn with
  | none =>
      simp only [hd]
      rw [h2.2, h1.2, hbsum]
      simp
  | some tl =>
      simp only [hd]
      rw [addTileCount_sum tl h2.1, h2.2, h1.2, hbsum]
      simp

end Mahjong

namespace Mahjong

/-- C10 (code bug): the in-repo hand string
`"5m 111z 222z 333z 444z 5m"` (single concealed tile, four called
Pons, drawn tile) parses, but re-serialization panics —
`make_short_str` reads `tiles[1]` of a one-element vector — embedded
as `none` instead of the round-tripped string. -/
theorem claim_C10 :
    (Hand.fromStr "5m 111z 222z 333z 444z 5m").to_short_string = none ∧
    (Hand.fromStr "5m 111z 222z 333z 444z 5m").tiles.length = 1 ∧
    (Hand.fromStr "5m 111z 222z 333z 444z 5m").opened.length = 4 := by
  decide

/-- C5: every yaku predicate reports `(…, false, 0)` whenever the
analysis has shanten ≠ −1. -/
theorem claim_C5 : ∀ (k : Kind) (a : HandAnalyzer) (st : Status) (se : Settings),
    a.shanten ≠ -1 →
    (check_one k a st se).2.1 = false ∧ (check_one k a st se).2.2 = 0 := by
  intro k a st se h
  have hw : has_won a = false := by
    simp only [has_won, beq_eq_false_iff_ne, ne_eq]
    exact h
  cases k <;>
    simp [check_one, check_ready_hand, check_seven_pairs, check_nagashi_mangan,
      check_self_pick, check_one_shot, check_last_tile_from_the_wall,
      check_last_discard, check_dead_wall_draw, check_robbing_a_quad,
      check_double_ready, check_no_points_hand,
      check_one_set_of_identical_sequences, check_three_color_straight,
      check_straight, check_two_sets_of_identical_sequences,
      check_all_triplet_hand, check_three_closed_triplets,
      check_three_color_triplets, check_all_simples,
      check_honor_tiles_players_wind, check_honor_tiles_prevailing_wind,
      check_honor_tiles_white_dragon, check_honor_tiles_green_dragon,
      check_honor_tiles_red_dragon, check_honor_tiles_dragons,
      check_terminal_or_honor_in_each_set, check_terminal_in_each_set,
      check_all_terminals_and_honors, check_little_three_dragons,
      check_half_flush, check_flush, check_thirteen_orphans,
      check_four_concealed_triplets, check_big_three_dragons,
      check_little_four_winds, check_big_four_winds, check_all_honors,
      check_all_terminals, check_all_green, check_nine_gates, check_four_kans,
      check_heavenly_hand, check_hand_of_earth, hw]

/-- Witness for C5: a tenpai analysis (shanten 0) matches no yaku. -/
theorem claim_C5_witness :
    (check_one Kind.ReadyHand
      { shanten := 0, form := .Normal, same3 := [], sequential3 := [],
        same2 := [], sequential2 := [], single := [] }
      Status.new Settings.new).2.1 = false ∧
    (check_one Kind.ReadyHand
      { shanten := 0, form := .Normal, same3 := [], sequential3 := [],
        same2 := [], sequential2 := [], single := [] }
      Status.new Settings.new).2.2 = 0 :=
  claim_C5 Kind.ReadyHand _ Status.new Settings.new (by decide)

end Mahjong

namespace Mahjong

theorem round_up_to_10_mod (n : Nat) : round_up_to_10 n % 10 = 0 :=
  Nat.mul_mod_left _ 10

theorem round_up_to_100_mod (n : Nat) : round_up_to_100 n % 100 = 0 :=
  Nat.mul_mod_left _ 100

theorem is_pinfu_form {a : HandAnalyzer} {h : Hand} {st : Status}
    (hp : is_pinfu a h st = true) : a.form = .Normal := by
  by_contra hf
  unfold is_pinfu at hp
  rw [if_neg, if_pos hf] at hp
  · exact Bool.false_ne_true hp
  · intro hopen
    rw [if_pos hopen] at hp
    exact Bool.false_ne_true hp

/-- C7: every fu total is 25 (SevenPairs) or a multiple of 10; the
flat cases return 25 / 30 / 20; a raw 20 on an open non-tsumo win
rounds to 30; and every payment in a `ScoreResult` is a multiple of
100. -/
theorem claim_C7 : ∀ (a : HandAnalyzer) (h : Hand) (st : Status),
    ((calculate_fu a h st).total % 10 = 0 ∨ (calculate_fu a h st).total = 25) ∧
    (a.form = .SevenPairs → (calculate_fu a h st).total = 25) ∧
    (a.form = .ThirteenOrphans → (calculate_fu a h st).total = 30) ∧
    (is_pinfu a h st = true → st.is_self_picked = true →
      (calculate_fu a h st).total = 20) ∧
    (a.form = .Normal → ¬(is_pinfu a h st = true ∧ st.is_self_picked = true) →
      ((fu_details a h st).map (fun d => d.2)).sum = 20 →
      st.is_self_picked = false → st.has_claimed_open = true →
      (calculate_fu a h st).total = 30) ∧
    (∀ (se : Settings) (s : ScoreResult), calculate_score a h st se = some s →
      s.dealer_ron % 100 = 0 ∧ s.dealer_tsumo_all % 100 = 0 ∧
      s.non_dealer_ron % 100 = 0 ∧ s.non_dealer_tsumo_dealer % 100 = 0 ∧
      s.non_dealer_tsumo_non_dealer % 100 = 0) := by
  intro a h st
  refine ⟨?_, ?_, ?_, ?_, ?_, ?_⟩
  · unfold calculate_fu
    split_ifs <;> try simp [round_up_to_10_mod]
    split_ifs <;> simp [round_up_to_10_mod]
  · intro hf
    simp [calculate_fu, hf]
  · intro hf
    unfold calculate_fu
    rw [if_neg (by simp [hf]), if_pos hf]
  · intro hp ht
    have hf := is_pinfu_form hp
    unfold calculate_fu
    rw [if_neg (by simp [hf]), if_neg (by simp [hf]), if_pos ⟨hp, ht⟩]
  · intro hf hnp hraw htsumo hopen
    unfold calculate_fu
    rw [if_neg (by simp [hf]), if_neg (by simp [hf]), if_neg hnp,
      if_pos ⟨hraw, htsumo, hopen⟩]
  · intro se s hs
    simp only [calculate_score] at hs
    split_ifs at hs
    rw [Option.some.injEq] at hs
    subst hs
    exact ⟨round_up_to_100_mod _, round_up_to_100_mod _, round_up_to_100_mod _,
      round_up_to_100_mod _, round_up_to_100_mod _⟩

/-- Witness for C7 at a concrete seven-pairs analysis and a scored
concrete input. -/
theorem claim_C7_witness :
    (calculate_fu
      { shanten := -1, form := .SevenPairs, same3 := [], sequential3 := [],
        same2 := [0, 2, 4, 6, 8, 10, 12], sequential2 := [], single := [] }
      { tiles := [], opened := [], drawn := none } Status.new).total = 25 :=
  (claim_C7 _ _ _).2.1 rfl

end Mahjong

namespace Mahjong

theorem char_eq_of_toNat_eq {a b : Char} (h : a.toNat = b.toNat) : a = b := by
  have hv : a.val = b.val := by
    apply UInt32.eq_of_val_eq
    exact Fin.ext (by simpa [Char.toNat, UInt32.toNat] using h)
  exact Char.eq_of_val_eq hv

theorem charListLt_cons_iff (x y : Char) (xs ys : List Char) :
    charListLt (x :: xs) (y :: ys) = true ↔
      (x.toNat < y.toNat ∨ (x.toNat = y.toNat ∧ charListLt xs ys = true)) := by
  simp only [charListLt]
  split_ifs with h1 h2
  · simp [h1]
  · simp only [Bool.false_eq_true, false_iff]
    rintro (h | ⟨h, _⟩) <;> omega
  · have hxy : x.toNat = y.toNat := by omega
    constructor
    · intro hc
      exact Or.inr ⟨hxy, hc⟩
    · rintro (h | ⟨_, hc⟩)
      · omega
      · exact hc

theorem charListLt_trans : ∀ a b c : List Char,
    charListLt a b = true → charListLt b c = true → charListLt a c = true := by
  intro a
  induction a with
  | nil =>
      intro b c hab hbc
      cases b with
      | nil => exact absurd hab (by simp [charListLt])
      | cons y ys =>
          cases c with
          | nil => exact absurd hbc (by simp [charListLt])
          | cons z zs => simp [charListLt]
  | cons x xs ih =>
      intro b c hab hbc
      cases b with
      | nil => exact absurd hab (by simp [charListLt])
      | cons y ys =>
          cases c with
          | nil => exact absurd hbc (by simp [charListLt])
          | cons z zs =>
              rw [charListLt_cons_iff] at hab hbc ⊢
              rcases hab with h1 | ⟨h1, hc1⟩ <;> rcases hbc with h2 | ⟨h2, hc2⟩
              · exact Or.inl (by omega)
              · exact Or.inl (by omega)
              · exact Or.inl (by omega)
              · exact Or.inr ⟨by omega, ih ys zs hc1 hc2⟩

theorem charListLt_asymm : ∀ a b : List Char,
    charListLt a b = true → charListLt b a = false := by
  intro a
  induction a with
  | nil =>
      intro b hab
      cases b with
      | nil => exact absurd hab (by simp [charListLt])
      | cons y ys => simp [charListLt]
  | cons x xs ih =>
      intro b hab
      cases b with
      | nil => exact absurd hab (by simp [charListLt])
      | cons y ys =>
          rw [charListLt_cons_iff] at hab
          rw [Bool.eq_false_iff]
          intro hba
          rw [charListLt_cons_iff] at hba
          rcases hab with h1 | ⟨h1, hc1⟩ <;> rcases hba with h2 | ⟨h2, hc2⟩
          · omega
          · omega
          · omega
          · exact absurd (ih ys hc1) (by simp [hc2])

theorem charListLt_eq_of_not : ∀ a b : List Char,
    charListLt a b = false → charListLt b a = false → a = b := by
  intro a
  induction a with
  | nil =>
      intro b hab _
      cases b with
      | nil => rfl
      | cons y ys => exact absurd hab (by simp [charListLt])
  | cons x xs ih =>
      intro b hab hba
      cases b with
      | nil => exact absurd hba (by simp [charListLt])
      | cons y ys =>
          rw [Bool.eq_false_iff] at hab hba
          rw [Ne, charListLt_cons_iff] at hab hba
          have hxy : x.toNat = y.toNat := by
            by_contra hne
            rcases Nat.lt_or_ge x.toNat y.toNat with h | h
            · exact absurd (Or.inl h) hab
            · have : y.toNat < x.toNat := by omega
              exact absurd (Or.inl this) hba
          have hxs : charListLt xs ys = false := by
            rw [Bool.eq_false_iff]
            intro hc
            exact absurd (Or.inr ⟨hxy, hc⟩) hab
          have hys : charListLt ys xs = false := by
            rw [Bool.eq_false_iff]
            intro hc
            exact absurd (Or.inr ⟨hxy.symm, hc⟩) hba
          rw [char_eq_of_toNat_eq hxy, ih ys hxs hys]

theorem strLe_total (a b : String) : strLe a b = true ∨ strLe b a = true := by
  unfold strLe
  by_cases h : charListLt b.data a.data = true
  · right
    simp [charListLt_asymm _ _ h]
  · left
    simp_all

theorem strLe_trans {a b c : String} (hab : strLe a b = true) (hbc : strLe b c = true) :
    strLe a c = true := by
  unfold strLe at *
  simp only [Bool.not_eq_true', Bool.not_eq_false] at *
  by_contra hca
  simp only [Bool.not_eq_false] at hca
  by_cases hba : charListLt b.data a.data = true
  · simp_all
  · by_cases hab2 : charListLt a.data b.data = true
    · have := charListLt_trans _ _ _ hca hab2
      simp_all
    · have heq := charListLt_eq_of_not _ _ (by simp_all) hab
      rw [heq] at hca
      simp_all

instance : IsTotal (String × Nat) yakuLe where
  total p q := by
    unfold yakuLe
    rcases Nat.lt_trichotomy p.2 q.2 with h | h | h
    · right; left; exact h
    · rcases strLe_total p.1 q.1 with hs | hs
      · left; right; exact ⟨h, hs⟩
      · right; right; exact ⟨h.symm, hs⟩
    · left; left; exact h

instance : IsTrans (String × Nat) yakuLe where
  trans p q r hpq hqr := by
    unfold yakuLe at *
    rcases hpq with h1 | ⟨h1, hs1⟩ <;> rcases hqr with h2 | ⟨h2, hs2⟩
    · left; omega
    · left; omega
    · left; omega
    · right; exact ⟨h1.trans h2, strLe_trans hs1 hs2⟩

end Mahjong

namespace Mahjong

/-- C6: if any matched yakuman exists the aggregated list has no entry
below 13 han; the list holds exactly the matched positive-han entries
(minus those dropped by yakuman exclusivity); and it is sorted by
descending han with ties by ascending name. -/
theorem claim_C6 : ∀ (m : List YakuResult),
    ((∃ e ∈ m, e.2.1 = true ∧ 13 ≤ e.2.2) →
      ∀ p ∈ extract_yaku_list m, 13 ≤ p.2) ∧
    (∀ (nm : String) (hn : Nat), (nm, hn) ∈ extract_yaku_list m ↔
      ((nm, true, hn) ∈ m ∧ 0 < hn ∧
        ¬((∃ e ∈ m, e.2.1 = true ∧ 13 ≤ e.2.2) ∧ hn < 13))) ∧
    List.Sorted yakuLe (extract_yaku_list m) := by
  intro m
  have hyiff : ((m.any fun e => e.2.1 && decide (13 ≤ e.2.2)) = true) ↔
      (∃ e ∈ m, e.2.1 = true ∧ 13 ≤ e.2.2) := by
    simp [List.any_eq_true]
  have hmem : ∀ (nm : String) (hn : Nat), (nm, hn) ∈ extract_yaku_list m ↔
      ((nm, true, hn) ∈ m ∧ 0 < hn ∧
        ¬(((m.any fun e => e.2.1 && decide (13 ≤ e.2.2)) = true) ∧ hn < 13)) := by
    intro nm hn
    unfold extract_yaku_list
    rw [(List.perm_insertionSort _ _).mem_iff, List.mem_filterMap]
    constructor
    · rintro ⟨e, hem, he⟩
      rw [Option.ite_none_right_eq_some] at he
      obtain ⟨⟨hv, hpos, hny⟩, heq⟩ := he
      rw [Option.some.injEq, Prod.mk.injEq] at heq
      obtain ⟨h1, h2⟩ := heq
      have he' : e = (nm, true, hn) := by
        obtain ⟨e1, ev, eh⟩ := e
        simp only at h1 h2 hv
        simp [h1, h2, hv]
      subst he'
      exact ⟨hem, hpos, hny⟩
    · rintro ⟨hm, hpos, hny⟩
      refine ⟨(nm, true, hn), hm, ?_⟩
      rw [Option.ite_none_right_eq_some]
      exact ⟨⟨rfl, hpos, hny⟩, rfl⟩
  refine ⟨?_, ?_, ?_⟩
  · intro hy p hp
    obtain ⟨nm, hn⟩ := p
    rw [hmem] at hp
    by_contra hlt
    exact hp.2.2 ⟨hyiff.mpr hy, by omega⟩
  · intro nm hn
    rw [hmem, hyiff]
  · unfold extract_yaku_list
    exact List.sorted_insertionSort _ _

/-- Witness for C6 on a concrete predicate table containing a yakuman
and two normal yaku. -/
theorem claim_C6_witness :
    ∀ p ∈ extract_yaku_list
      [("立直", true, 1), ("国士無双", true, 13), ("門前清自摸和", true, 1)],
      13 ≤ p.2 :=
  (claim_C6 [("立直", true, 1), ("国士無双", true, 13), ("門前清自摸和", true, 1)]).1
    ⟨("国士無双", true, 13), by decide, by decide⟩

end Mahjong

namespace Mahjong

/-- C3 (code bug): for the kanchan-wait pinfu-shaped hand
`"123789m456p11p13s 2s"` the predicate `check_no_points_hand` matches
with 1 han although the winning tile `2s` completes a closed (middle)
wait — `is_two_sided_wait` is false — because the predicate never
examines the wait shape. -/
theorem claim_C3 :
    (HandAnalyzer.new (Hand.fromStr "123789m456p11p13s 2s")).shanten = -1 ∧
    (Hand.fromStr "123789m456p11p13s 2s").drawn = some ⟨19, by decide⟩ ∧
    (check_no_points_hand (HandAnalyzer.new (Hand.fromStr "123789m456p11p13s 2s"))
      Status.new Settings.new).2 = (true, 1) ∧
    is_two_sided_wait 19 ((Hand.fromStr "123789m456p11p13s 2s").summarize_tiles) =
      false := by
  decide

/-- C9 counterexample: the winning hand `"333m456p1789s 333z 1s"` has a
called Pon of `3z` (tile 29), and that triplet appears in the
analysis's `same3` list. -/
theorem claim_C9_counterexample :
    (HandAnalyzer.new (Hand.fromStr "333m456p1789s 333z 1s")).shanten = -1 ∧
    (Hand.fromStr "333m456p1789s 333z 1s").opened =
      [⟨(⟨29, by decide⟩, ⟨29, by decide⟩, ⟨29, by decide⟩),
        OpenType.Pon, OpenFrom.Unknown⟩] ∧
    29 ∈ (HandAnalyzer.new (Hand.fromStr "333m456p1789s 333z 1s")).same3 := by
  decide

/-- C9 (amended): the analyzer folds called melds into the summary, so
called Pon triplets do appear in `same3`; `check_three_closed_triplets`
fires exactly on a won analysis with `same3.length ≥ 3` and therefore
counts called triplets as closed — witnessed by a winning hand with two
concealed triplets whose Pon of `3z` still triggers the 2-han yaku. -/
theorem claim_C9 :
    (∀ (a : HandAnalyzer) (st : Status) (se : Settings),
      ((check_three_closed_triplets a st se).2.1 = true ↔
        (a.shanten = -1 ∧ 3 ≤ a.same3.length))) ∧
    ((HandAnalyzer.new (Hand.fromStr "111m222p33s44z 333z 3s")).shanten = -1 ∧
      29 ∈ (HandAnalyzer.new (Hand.fromStr "111m222p33s44z 333z 3s")).same3 ∧
      (Hand.fromStr "111m222p33s44z 333z 3s").opened =
        [⟨(⟨29, by decide⟩, ⟨29, by decide⟩, ⟨29, by decide⟩),
          OpenType.Pon, OpenFrom.Unknown⟩] ∧
      (check_three_closed_triplets
        (HandAnalyzer.new (Hand.fromStr "111m222p33s44z 333z 3s"))
        Status.new Settings.new).2 = (true, 2)) := by
  constructor
  · intro a st se
    have hiff : has_won a = true ↔ a.shanten = -1 := by simp [has_won]
    unfold check_three_closed_triplets
    by_cases h1 : has_won a = false
    · rw [if_pos h1]
      constructor
      · intro hc
        exact absurd hc (by simp)
      · rintro ⟨hsh, _⟩
        rw [hiff.mpr hsh] at h1
        exact absurd h1 (by simp)
    · rw [if_neg h1]
      have hsh : a.shanten = -1 := by
        apply hiff.mp
        revert h1
        cases has_won a <;> simp
      by_cases h2 : 3 ≤ a.same3.length
      · rw [if_pos h2]
        simp [hsh, h2]
      · rw [if_neg h2]
        simp [hsh, h2]
  · decide

/-- The canonical two-identical-sequences hand of the spec. -/
def hand_C1 : Hand := Hand.fromStr "112233m456456p7z 7z"

/-- C1: when the Normal grammar reaches −1, `HandAnalyzer::new` returns
the Normal analysis (so `form = Normal`); otherwise it returns the
minimum-shanten analysis of the three grammars; and on the canonical
hand the aggregator reports 二盃口 (3 han) and never 七対子. -/
theorem claim_C1 :
    (∀ h : Hand,
      ((HandAnalyzer.calc_normal_form h).shanten = -1 →
        HandAnalyzer.new h = HandAnalyzer.calc_normal_form h ∧
        (HandAnalyzer.new h).form = Form.Normal) ∧
      ((HandAnalyzer.calc_normal_form h).shanten ≠ -1 →
        (HandAnalyzer.new h).shanten =
          min (min (HandAnalyzer.calc_seven_pairs h).shanten
              (HandAnalyzer.calc_thirteen_orphans h).shanten)
            (HandAnalyzer.calc_normal_form h).shanten)) ∧
    ((HandAnalyzer.new hand_C1).form = Form.Normal ∧
      ("二盃口", 3) ∈ extract_yaku_list
        (checkAll (HandAnalyzer.new hand_C1) Status.new Settings.new) ∧
      ∀ p ∈ extract_yaku_list
        (checkAll (HandAnalyzer.new hand_C1) Status.new Settings.new),
        p.1 ≠ "七対子") := by
  constructor
  · intro h
    constructor
    · intro hsh
      have hnew : HandAnalyzer.new h = HandAnalyzer.calc_normal_form h := by
        unfold HandAnalyzer.new
        rw [if_pos hsh]
      exact ⟨hnew, by rw [hnew]; rfl⟩
    · intro hsh
      unfold HandAnalyzer.new
      rw [if_neg hsh]
      unfold haMin
      split_ifs <;> omega
  · refine ⟨by decide, by decide, by decide⟩

/-- Witness for C1: the canonical hand wins in Normal form, so `new`
returns the Normal analysis. -/
theorem claim_C1_witness :
    HandAnalyzer.new hand_C1 = HandAnalyzer.calc_normal_form hand_C1 ∧
    (HandAnalyzer.new hand_C1).form = Form.Normal :=
  (claim_C1.1 hand_C1).1 (by decide)

end Mahjong

namespace Mahjong

/-- Tiles of index `k` contributed by a list of run-start tiles: each
run `s` covers `s`, `s+1`, `s+2`. -/
def seqCnt (l : List TileType) (k : Nat) : Nat :=
  (l.filter (fun s => s == k || s + 1 == k || s + 2 == k)).length

/-- Tiles of index `k` contributed by a list of partial blocks. -/
def q2Cnt (l : List (TileType × TileType)) (k : Nat) : Nat :=
  (l.filter (fun p => p.1 == k)).length + (l.filter (fun p => p.2 == k)).length

/-- Tiles of index `k` held by the search's current block stacks. -/
def stBlockCnt (st : St) (k : Nat) : Nat :=
  3 * st.s3.count k + seqCnt st.q3 k + 2 * st.s2.count k + q2Cnt st.q2 k

/-- Tiles of index `k` held by the result registers' blocks. -/
def accBlockCnt (acc : Acc) (k : Nat) : Nat :=
  3 * acc.rs3.count k + seqCnt acc.rq3 k + 2 * acc.rs2.count k + q2Cnt acc.rq2 k

/-- Tiles of index `k` in an analysis's blocks plus singles: the
multiset-union of the decomposition. -/
def analyzerBlockCnt (a : HandAnalyzer) (k : Nat) : Nat :=
  3 * a.same3.count k + seqCnt a.sequential3 k + 2 * a.same2.count k +
    q2Cnt a.sequential2 k + a.single.count k

/-- The search state is aligned with the peeled summary `tP`: blocks on
the stacks plus the current summary account for every tile of `tP`. -/
def stAligned (tP : TileSummarize) (st : St) : Prop :=
  st.smry.length = 34 ∧ ∀ k, tget tP k = tget st.smry k + stBlockCnt st k

/-- The registers are valid for `tP`: register blocks plus singles
account for every tile of `tP` and the stored shanten satisfies the
`8 − 2·b3 − b2` formula (counting the `nInd` independent 3-blocks). -/
def accValid (nInd : Nat) (tP : TileSummarize) (acc : Acc) : Prop :=
  (∀ k, accBlockCnt acc k + acc.rsingle.count k = tget tP k) ∧
  acc.sh = 8 - 2 * ((nInd + acc.rs3.length + acc.rq3.length : Nat) : Int)
    - ((acc.rs2.length + acc.rq2.length : Nat) : Int)

/-- The registers are untouched (initial 100) or valid. -/
def accOk (nInd : Nat) (tP : TileSummarize) (acc : Acc) : Prop :=
  acc = ⟨100, [], [], [], [], []⟩ ∨ accValid nInd tP acc

theorem tget_set_self {t : TileSummarize} {i : Nat} (v : Nat) (h : i < t.length) :
    tget (t.set i v) i = v := by
  simp [tget, List.getD, List.getElem?_set_self', h]

theorem tget_set_ne {t : TileSummarize} {i k : Nat} (v : Nat) (h : k ≠ i) :
    tget (t.set i v) k = tget t k := by
  simp [tget, List.getD, List.getElem?_set_ne (Ne.symm h)]

theorem tget_lt_length {t : TileSummarize} {i : Nat} (h : 0 < tget t i) :
    i < t.length := by
  by_contra hi
  rw [tget, List.getD_eq_default] at h
  · exact absurd h (by simp)
  · omega

theorem tsub_length (t : TileSummarize) (i n : Nat) :
    (tsub t i n).length = t.length := by
  simp [tsub]

theorem tget_tsub_self {t : TileSummarize} {i n : Nat} (h : i < t.length) :
    tget (tsub t i n) i = tget t i - n := tget_set_self _ h

theorem tget_tsub_ne {t : TileSummarize} {i k : Nat} (n : Nat) (h : k ≠ i) :
    tget (tsub t i n) k = tget t k := tget_set_ne _ h

theorem count_append_singleton (l : List Nat) (x k : Nat) :
    (l ++ [x]).count k = l.count k + (if x = k then 1 else 0) := by
  rw [List.count_append]
  by_cases h : x = k <;> simp [h, List.count_singleton']

theorem seqCnt_append_singleton (l : List TileType) (s k : Nat) :
    seqCnt (l ++ [s]) k =
      seqCnt l k + (if s = k ∨ s + 1 = k ∨ s + 2 = k then 1 else 0) := by
  simp only [seqCnt, List.filter_append, List.length_append, List.filter_singleton]
  by_cases h : s = k ∨ s + 1 = k ∨ s + 2 = k
  · have hb : (s == k || s + 1 == k || s + 2 == k) = true := by
      rcases h with h | h | h <;> simp [h]
    simp [hb, h]
  · have hb : (s == k || s + 1 == k || s + 2 == k) = false := by
      push_neg at h
      simp [beq_eq_false_iff_ne, h.1, h.2.1, h.2.2]
    simp [hb, h]

theorem q2Cnt_append_singleton (l : List (TileType × TileType)) (a b k : Nat) :
    q2Cnt (l ++ [(a, b)]) k =
      q2Cnt l k + (if a = k then 1 else 0) + (if b = k then 1 else 0) := by
  have h1 : (List.filter (fun p => p.1 == k) [(a, b)]).length =
      (if a = k then 1 else 0) := by
    by_cases h : a = k <;> simp [h]
  have h2 : (List.filter (fun p => p.2 == k) [(a, b)]).length =
      (if b = k then 1 else 0) := by
    by_cases h : b = k <;> simp [h]
  simp only [q2Cnt, List.filter_append, List.length_append, h1, h2]
  omega

end Mahjong

namespace Mahjong

theorem count_replicate_eq (n i k : Nat) :
    (List.replicate n i).count k = if i = k then n else 0 := by
  by_cases h : i = k <;> simp [h, List.count_replicate]

theorem singlesOf_count_aux (t : TileSummarize) (k : Nat) :
    ∀ (l : List Nat) (acc : List Nat), l.Nodup →
      (l.foldl (fun acc i => acc ++ List.replicate (tget t i) i) acc).count k =
        acc.count k + (if k ∈ l then tget t k else 0) := by
  intro l
  induction l with
  | nil => intro acc _; simp
  | cons i l' ih =>
      intro acc hnd
      rw [List.nodup_cons] at hnd
      simp only [List.foldl_cons]
      rw [ih _ hnd.2, List.count_append, count_replicate_eq]
      by_cases hik : i = k
      · subst hik
        have : i ∉ l' := hnd.1
        simp [this]
      · by_cases hkm : k ∈ l' <;> simp [hik, hkm, Ne.symm hik]

theorem singlesOf_count (t : TileSummarize) (ht : t.length = 34) (k : Nat) :
    (singlesOf t).count k = tget t k := by
  unfold singlesOf
  rw [singlesOf_count_aux t k _ _ (List.nodup_range 34)]
  simp only [List.count_nil, List.mem_range, Nat.zero_add]
  by_cases hk : k < 34
  · simp [hk]
  · rw [if_neg hk, tget, List.getD_eq_default]
    omega

theorem stAligned_pushS3 {tP : TileSummarize} {st : St} {i : Nat}
    (hA : stAligned tP st) (h : 3 ≤ tget st.smry i) :
    stAligned tP (pushS3 st i) := by
  obtain ⟨hl, hc⟩ := hA
  have hi : i < st.smry.length := tget_lt_length (by omega)
  refine ⟨by simp [pushS3, tsub_length, hl], ?_⟩
  intro k
  simp only [pushS3, stBlockCnt, count_append_singleton]
  by_cases hk : k = i
  · subst hk
    rw [tget_tsub_self hi]
    have := hc k
    simp only [stBlockCnt] at this
    rw [if_pos rfl]
    omega
  · rw [tget_tsub_ne _ hk]
    have := hc k
    simp only [stBlockCnt] at this
    rw [if_neg (fun he => hk he.symm)]
    omega

theorem stAligned_pushQ3 {tP : TileSummarize} {st : St} {i : Nat}
    (hA : stAligned tP st) (h0 : 1 ≤ tget st.smry i) (h1 : 1 ≤ tget st.smry (i+1))
    (h2 : 1 ≤ tget st.smry (i+2)) :
    stAligned tP (pushQ3 st i) := by
  obtain ⟨hl, hc⟩ := hA
  have hi0 : i < st.smry.length := tget_lt_length (by omega)
  have hi1 : i + 1 < st.smry.length := tget_lt_length (t := st.smry) (i := i + 1) (by omega)
  have hi2 : i + 2 < st.smry.length := tget_lt_length (t := st.smry) (i := i + 2) (by omega)
  refine ⟨by simp [pushQ3, tsub_length, hl], ?_⟩
  intro k
  have hm : tget (tsub (tsub (tsub st.smry i 1) (i+1) 1) (i+2) 1) k =
      tget st.smry k - (if k = i ∨ k = i + 1 ∨ k = i + 2 then 1 else 0) := by
    by_cases e2 : k = i + 2
    · subst e2
      rw [tget_tsub_self (by simp [tsub_length]; omega)]
      rw [tget_tsub_ne _ (by omega), tget_tsub_ne _ (by omega)]
      simp
    · rw [tget_tsub_ne _ e2]
      by_cases e1 : k = i + 1
      · subst e1
        rw [tget_tsub_self (by simp [tsub_length]; omega)]
        rw [tget_tsub_ne _ (by omega)]
        simp
      · rw [tget_tsub_ne _ e1]
        by_cases e0 : k = i
        · subst e0
          rw [tget_tsub_self hi0]
          simp
        · rw [tget_tsub_ne _ e0]
          simp [e0, e1, e2]
  simp only [pushQ3, stBlockCnt, seqCnt_append_singleton]
  rw [hm]
  have := hc k
  simp only [stBlockCnt] at this
  by_cases hk : k = i ∨ k = i + 1 ∨ k = i + 2
  · have hcond : i = k ∨ i + 1 = k ∨ i + 2 = k := by
      rcases hk with h | h | h <;> omega
    rw [if_pos hk, if_pos hcond]
    have hbound : 1 ≤ tget st.smry k := by
      rcases hk with h | h | h <;> subst h <;> omega
    omega
  · have hcond : ¬(i = k ∨ i + 1 = k ∨ i + 2 = k) := by
      push_neg at hk ⊢
      omega
    rw [if_neg hk, if_neg hcond]
    omega

theorem stAligned_pushS2 {tP : TileSummarize} {st : St} {i : Nat}
    (hA : stAligned tP st) (h : 2 ≤ tget st.smry i) :
    stAligned tP (pushS2 st i) := by
  obtain ⟨hl, hc⟩ := hA
  have hi : i < st.smry.length := tget_lt_length (by omega)
  refine ⟨by simp [pushS2, tsub_length, hl], ?_⟩
  intro k
  simp only [pushS2, stBlockCnt, count_append_singleton]
  have := hc k
  simp only [stBlockCnt] at this
  by_cases hk : k = i
  · subst hk
    rw [tget_tsub_self hi, if_pos rfl]
    omega
  · rw [tget_tsub_ne _ hk, if_neg (fun he => hk he.symm)]
    omega

/-- Common form of the two partial pushes (`d = 1` or `d = 2`). -/
def pushQ2g (st : St) (i d : Nat) : St :=
  let sm := tsub (tsub st.smry i 1) (i + d) 1
  { st with smry := sm, q2 := st.q2 ++ [(i, i + d)] }

theorem pushQ2a_eq_g (st : St) (i : Nat) : pushQ2a st i = pushQ2g st i 1 := rfl

theorem pushQ2k_eq_g (st : St) (i : Nat) : pushQ2k st i = pushQ2g st i 2 := rfl

theorem stAligned_pushQ2 {tP : TileSummarize} {st : St} {i d : Nat}
    (hA : stAligned tP st) (hd : 1 ≤ d) (h0 : 1 ≤ tget st.smry i)
    (h1 : 1 ≤ tget st.smry (i + d)) :
    stAligned tP (pushQ2g st i d) := by
  obtain ⟨hl, hc⟩ := hA
  have hi0 : i < st.smry.length := tget_lt_length (by omega)
  have hi1 : i + d < st.smry.length :=
    tget_lt_length (t := st.smry) (i := i + d) (by omega)
  refine ⟨by simp [pushQ2g, tsub_length, hl], ?_⟩
  intro k
  have hm : tget (tsub (tsub st.smry i 1) (i + d) 1) k =
      tget st.smry k - (if k = i ∨ k = i + d then 1 else 0) := by
    by_cases e1 : k = i + d
    · subst e1
      rw [tget_tsub_self (by simp [tsub_length]; omega)]
      rw [tget_tsub_ne _ (by omega)]
      simp
    · rw [tget_tsub_ne _ e1]
      by_cases e0 : k = i
      · subst e0
        rw [tget_tsub_self hi0]
        simp
      · rw [tget_tsub_ne _ e0]
        simp [e0, e1]
  simp only [pushQ2g, stBlockCnt, q2Cnt_append_singleton]
  rw [hm]
  have := hc k
  simp only [stBlockCnt] at this
  by_cases hk0 : i = k <;> by_cases hk1 : i + d = k
  · rw [if_pos hk0, if_pos hk1, if_pos (by omega)]
    omega
  · rw [if_pos hk0, if_neg hk1, if_pos (by omega)]
    subst hk0
    omega
  · rw [if_neg hk0, if_pos hk1, if_pos (by omega)]
    subst hk1
    omega
  · rw [if_neg hk0, if_neg hk1, if_neg (by omega)]
    omega

end Mahjong

namespace Mahjong

theorem calc_normal_shanten_le (nInd : Nat) (st : St) :
    calc_normal_shanten nInd st ≤ 8 := by
  unfold calc_normal_shanten
  have h1 : (0 : Int) ≤ ((nInd + st.s3.length + st.q3.length : Nat) : Int) := by
    positivity
  have h2 : (0 : Int) ≤ ((st.s2.length + st.q2.length : Nat) : Int) := by
    positivity
  omega

theorem leafStep_valid {nInd : Nat} {tP : TileSummarize} {st : St} {acc : Acc}
    (hst : stAligned tP st) (hacc : accOk nInd tP acc) :
    accValid nInd tP (leafStep nInd st acc) := by
  simp only [leafStep]
  split_ifs with h
  · constructor
    · intro k
      simp only [accBlockCnt]
      rw [singlesOf_count st.smry hst.1 k]
      have := hst.2 k
      simp only [stBlockCnt] at this
      omega
    · rfl
  · rcases hacc with hinit | hval
    · exfalso
      have h8 := calc_normal_shanten_le nInd st
      rw [hinit] at h
      simp only [not_lt] at h
      omega
    · exact hval

theorem normal_search_ok : ∀ (f : Nat) (m : SMode) (nInd : Nat)
    (tP : TileSummarize) (st : St) (acc : Acc), stAligned tP st →
    accOk nInd tP acc → accOk nInd tP (normal_search f m nInd st acc) := by
  intro f
  induction f with
  | zero =>
      intro m nInd tP st acc _ hacc
      simpa [normal_search] using hacc
  | succ f ih =>
      intro m nInd tP st acc hst hacc
      cases m with
      | call idx =>
          simp only [normal_search]
          exact Or.inr (leafStep_valid hst (ih _ _ _ _ _ hst (ih _ _ _ _ _ hst hacc)))
      | loop3 idx i gas =>
          cases gas with
          | zero => simpa [normal_search] using hacc
          | succ g =>
              simp only [normal_search]
              apply ih _ _ _ _ _ hst
              split_ifs with hc2 hc1 hc1
              · exact ih _ _ _ _ _
                  (stAligned_pushQ3 hst hc2.2.1 hc2.2.2.1 hc2.2.2.2)
                  (ih _ _ _ _ _ (stAligned_pushS3 hst hc1) hacc)
              · exact ih _ _ _ _ _
                  (stAligned_pushQ3 hst hc2.2.1 hc2.2.2.1 hc2.2.2.2) hacc
              · exact ih _ _ _ _ _ (stAligned_pushS3 hst hc1) hacc
              · exact hacc
      | loop2 idx i gas =>
          cases gas with
          | zero => simpa [normal_search] using hacc
          | succ g =>
              simp only [normal_search]
              apply ih _ _ _ _ _ hst
              have ha1 : accOk nInd tP
                  (if tget st.smry i = 2 then
                    normal_search f (.call idx) nInd (pushS2 st i) acc
                  else acc) := by
                split_ifs with hc
                · exact ih _ _ _ _ _ (stAligned_pushS2 hst (by omega)) hacc
                · exact hacc
              by_cases hs : suited7 i
              · rw [if_pos hs]
                have hb1 : accOk nInd tP
                    (if 1 ≤ tget st.smry i ∧ 1 ≤ tget st.smry (i + 1) then
                      normal_search f (.call idx) nInd (pushQ2a st i)
                        (if tget st.smry i = 2 then
                          normal_search f (.call idx) nInd (pushS2 st i) acc
                        else acc)
                    else
                      if tget st.smry i = 2 then
                        normal_search f (.call idx) nInd (pushS2 st i) acc
                      else acc) := by
                  by_cases hca : 1 ≤ tget st.smry i ∧ 1 ≤ tget st.smry (i + 1)
                  · rw [if_pos hca, pushQ2a_eq_g]
                    exact ih _ _ _ _ _
                      (stAligned_pushQ2 hst (by omega) hca.1 hca.2) ha1
                  · rw [if_neg hca]
                    exact ha1
                by_cases hck : 1 ≤ tget st.smry i ∧ tget st.smry (i + 1) = 0 ∧
                    1 ≤ tget st.smry (i + 2)
                · rw [if_pos hck, pushQ2k_eq_g]
                  exact ih _ _ _ _ _
                    (stAligned_pushQ2 hst (by omega) hck.1 hck.2.2) hb1
                · rw [if_neg hck]
                  exact hb1
              · rw [if_neg hs]
                exact ha1

theorem normal_search_call_valid (f idx nInd : Nat) (tP : TileSummarize)
    (st : St) (acc : Acc) (hst : stAligned tP st) (hacc : accOk nInd tP acc) :
    accValid nInd tP (normal_search (f + 1) (.call idx) nInd st acc) := by
  simp only [normal_search]
  exact leafStep_valid hst
    (normal_search_ok _ _ _ _ _ _ hst (normal_search_ok _ _ _ _ _ _ hst hacc))

end Mahjong

namespace Mahjong

theorem foldl_preserve {α β : Type} (P : β → Prop) (f : β → α → β) :
    ∀ (l : List α) (b : β), P b → (∀ b a, a ∈ l → P b → P (f b a)) →
      P (l.foldl f b) := by
  intro l
  induction l with
  | nil => intro b hb _; simpa using hb
  | cons x xs ih =>
      intro b hb hf
      simp only [List.foldl_cons]
      exact ih _ (hf b x (by simp) hb)
        (fun c a ha hc => hf c a (by simp [ha]) hc)

theorem peelStep_spec (t0 : TileSummarize) (st : TileSummarize × List TileType)
    (i n : Nat) (c : Prop) [Decidable c] (hn1 : 1 ≤ n)
    (hcimp : c → n ≤ tget st.1 i)
    (hl : st.1.length = 34)
    (hc : ∀ k, tget t0 k = tget st.1 k + n * st.2.count k) :
    (if c then (tsub st.1 i n, st.2 ++ [i]) else st).1.length = 34 ∧
      ∀ k, tget t0 k =
        tget (if c then (tsub st.1 i n, st.2 ++ [i]) else st).1 k +
          n * (if c then (tsub st.1 i n, st.2 ++ [i]) else st).2.count k := by
  split_ifs with hcond
  · have hn := hcimp hcond
    have hi : i < st.1.length := tget_lt_length (by omega)
    refine ⟨by simp [tsub_length, hl], ?_⟩
    intro k
    have hck := hc k
    by_cases hk : k = i
    · subst hk
      rw [tget_tsub_self hi, count_append_singleton, if_pos rfl,
        Nat.mul_add, Nat.mul_one]
      omega
    · rw [tget_tsub_ne _ hk, count_append_singleton, if_neg (Ne.symm hk),
        Nat.add_zero]
      omega
  · exact ⟨hl, hc⟩

theorem indSame3Step_spec (t0 : TileSummarize)
    (st : TileSummarize × List TileType) (i : Nat)
    (h : st.1.length = 34 ∧
      ∀ k, tget t0 k = tget st.1 k + 3 * st.2.count k) :
    (indSame3Step st i).1.length = 34 ∧
      ∀ k, tget t0 k =
        tget (indSame3Step st i).1 k + 3 * (indSame3Step st i).2.count k := by
  obtain ⟨hl, hc⟩ := h
  simp only [indSame3Step]
  refine peelStep_spec t0 st i 3 _ (by omega) ?_ hl hc
  intro hcond
  split_ifs at hcond <;> omega

theorem indSingleStep_spec (t0 : TileSummarize)
    (st : TileSummarize × List TileType) (i : Nat)
    (h : st.1.length = 34 ∧
      ∀ k, tget t0 k = tget st.1 k + 1 * st.2.count k) :
    (indSingleStep st i).1.length = 34 ∧
      ∀ k, tget t0 k =
        tget (indSingleStep st i).1 k + 1 * (indSingleStep st i).2.count k := by
  obtain ⟨hl, hc⟩ := h
  simp only [indSingleStep]
  refine peelStep_spec t0 st i 1 _ (by omega) ?_ hl hc
  intro hcond
  split_ifs at hcond <;> omega

theorem seqCnt_cons (s : TileType) (l : List TileType) (k : Nat) :
    seqCnt (s :: l) k =
      (if s = k ∨ s + 1 = k ∨ s + 2 = k then 1 else 0) + seqCnt l k := by
  simp only [seqCnt, List.filter_cons]
  by_cases h : s = k ∨ s + 1 = k ∨ s + 2 = k
  · have hb : (s == k || s + 1 == k || s + 2 == k) = true := by
      rcases h with h | h | h <;> simp [h]
    simp [hb, h]
    omega
  · have hb : (s == k || s + 1 == k || s + 2 == k) = false := by
      push_neg at h
      simp [beq_eq_false_iff_ne, h.1, h.2.1, h.2.2]
    simp [hb, h]

theorem seqCnt_append (a b : List TileType) (k : Nat) :
    seqCnt (a ++ b) k = seqCnt a k + seqCnt b k := by
  simp [seqCnt, List.filter_append]

theorem seqCnt_replicate (n s k : Nat) :
    seqCnt (List.replicate n s) k =
      (if s = k ∨ s + 1 = k ∨ s + 2 = k then n else 0) := by
  induction n with
  | zero => simp [seqCnt]
  | succ m ih =>
      rw [List.replicate_succ, seqCnt_cons, ih]
      split_ifs <;> omega

end Mahjong

namespace Mahjong

theorem indSeq3Step_spec (t0 : TileSummarize)
    (st : TileSummarize × List TileType) (p : Nat × Nat × Nat) (hp : 1 ≤ p.1)
    (h : st.1.length = 34 ∧ ∀ k, tget t0 k = tget st.1 k + seqCnt st.2 k) :
    (indSeq3Step st p).1.length = 34 ∧
      ∀ k, tget t0 k =
        tget (indSeq3Step st p).1 k + seqCnt (indSeq3Step st p).2 k := by
  obtain ⟨n, j, m⟩ := p
  obtain ⟨hl, hc⟩ := h
  have hn : 1 ≤ n := hp
  simp only [indSeq3Step]
  split_ifs with hcond
  · have h1 : tget st.1 (j + m) = n := hcond.2.2.2.2.1
    have h2 : tget st.1 (j + m + 1) = n := hcond.2.2.2.2.2.1
    have h3 : tget st.1 (j + m + 2) = n := hcond.2.2.2.2.2.2
    have hl1 : j + m < st.1.length := tget_lt_length (by omega)
    have hl2 : j + m + 1 < st.1.length := tget_lt_length (by omega)
    have hl3 : j + m + 2 < st.1.length := tget_lt_length (by omega)
    refine ⟨by simp [tsub_length, hl], ?_⟩
    have key : ∀ q,
        tget (tsub (tsub (tsub st.1 (j + m) n) (j + m + 1) n) (j + m + 2) n) q =
          if q = j + m ∨ q = j + m + 1 ∨ q = j + m + 2 then tget st.1 q - n
          else tget st.1 q := by
      intro q
      by_cases e1 : q = j + m
      · subst e1
        rw [tget_tsub_ne _ (by omega), tget_tsub_ne _ (by omega),
          tget_tsub_self hl1, if_pos (Or.inl rfl)]
      · by_cases e2 : q = j + m + 1
        · subst e2
          have hb : j + m + 1 < (tsub st.1 (j + m) n).length := by
            rw [tsub_length]; exact hl2
          rw [tget_tsub_ne _ (by omega), tget_tsub_self hb,
            tget_tsub_ne _ (by omega), if_pos (Or.inr (Or.inl rfl))]
        · by_cases e3 : q = j + m + 2
          · subst e3
            have hb : j + m + 2 <
                (tsub (tsub st.1 (j + m) n) (j + m + 1) n).length := by
              rw [tsub_length, tsub_length]; exact hl3
            rw [tget_tsub_self hb, tget_tsub_ne _ (by omega),
              tget_tsub_ne _ (by omega), if_pos (Or.inr (Or.inr rfl))]
          · rw [tget_tsub_ne _ e3, tget_tsub_ne _ e2, tget_tsub_ne _ e1,
              if_neg (by tauto)]
    intro q
    have hcq := hc q
    rw [key q, seqCnt_append, seqCnt_replicate]
    split_ifs with hA hB hB
    · rcases hA with e | e | e <;> subst e <;> omega
    · omega
    · omega
    · omega
  · exact ⟨hl, hc⟩

end Mahjong

namespace Mahjong

theorem count_independent_same_3_spec (t0 : TileSummarize) (h : t0.length = 34) :
    (count_independent_same_3 t0).1.length = 34 ∧
      ∀ k, tget t0 k = tget (count_independent_same_3 t0).1 k +
        3 * (count_independent_same_3 t0).2.count k := by
  unfold count_independent_same_3
  exact foldl_preserve
    (fun st => st.1.length = 34 ∧
      ∀ k, tget t0 k = tget st.1 k + 3 * st.2.count k)
    indSame3Step (List.range 34) (t0, [])
    ⟨h, fun k => by simp⟩
    (fun b a _ hb => indSame3Step_spec t0 b a hb)

theorem count_independent_sequential_3_spec (t0 : TileSummarize)
    (h : t0.length = 34) :
    (count_independent_sequential_3 t0).1.length = 34 ∧
      ∀ k, tget t0 k = tget (count_independent_sequential_3 t0).1 k +
        seqCnt (count_independent_sequential_3 t0).2 k := by
  have hall : ∀ p ∈ ([2, 1].flatMap (fun n =>
      [0, 9, 18].flatMap (fun j => (List.range 7).map (fun k => (n, j, k))))),
      1 ≤ (p : Nat × Nat × Nat).1 := by decide
  simp only [count_independent_sequential_3]
  exact foldl_preserve
    (fun st => st.1.length = 34 ∧
      ∀ k, tget t0 k = tget st.1 k + seqCnt st.2 k)
    indSeq3Step _ (t0, [])
    ⟨h, fun k => by simp [seqCnt]⟩
    (fun b a ha hb => indSeq3Step_spec t0 b a (hall a ha) hb)

theorem count_independent_single_spec (t0 : TileSummarize) (h : t0.length = 34) :
    (count_independent_single t0).1.length = 34 ∧
      ∀ k, tget t0 k = tget (count_independent_single t0).1 k +
        (count_independent_single t0).2.count k := by
  unfold count_independent_single
  have hmain := foldl_preserve
    (fun st => st.1.length = 34 ∧
      ∀ k, tget t0 k = tget st.1 k + 1 * st.2.count k)
    indSingleStep (List.range 34) (t0, [])
    ⟨h, fun k => by simp⟩
    (fun b a _ hb => indSingleStep_spec t0 b a hb)
  exact ⟨hmain.1, fun k => by have := hmain.2 k; omega⟩

theorem summarize_tiles_length (h : Hand) : h.summarize_tiles.length = 34 := by
  unfold Hand.summarize_tiles
  have hbase : (List.replicate 34 (0 : Nat)).length = 34 := by simp
  have h1 := foldl_addTileCount h.tiles _ hbase
  have h2 := foldl_addMeld h.opened _ h1.1
  cases hd : h.drawn with
  | none => exact h2.1
  | some tl => exact addTileCount_length tl h2.1

end Mahjong

namespace Mahjong

/-- The summary after the triplet peel of `calc_normal_form`. -/
def cnfT1 (h : Hand) : TileSummarize :=
  (count_independent_same_3 h.summarize_tiles).1

/-- The independent triplets peeled by `calc_normal_form`. -/
def cnfInd3 (h : Hand) : List TileType :=
  (count_independent_same_3 h.summarize_tiles).2

/-- The summary after the run peel of `calc_normal_form`. -/
def cnfT2 (h : Hand) : TileSummarize :=
  (count_independent_sequential_3 (cnfT1 h)).1

/-- The independent runs peeled by `calc_normal_form`. -/
def cnfIndQ3 (h : Hand) : List TileType :=
  (count_independent_sequential_3 (cnfT1 h)).2

/-- The summary after the isolated-tile peel of `calc_normal_form`. -/
def cnfT3 (h : Hand) : TileSummarize :=
  (count_independent_single (cnfT2 h)).1

/-- The isolated tiles peeled by `calc_normal_form`. -/
def cnfIndS (h : Hand) : List TileType :=
  (count_independent_single (cnfT2 h)).2

/-- The number of independent 3-blocks passed to the search. -/
def cnfNInd (h : Hand) : Nat := (cnfInd3 h).length + (cnfIndQ3 h).length

/-- The fuel `calc_normal_form` hands to the search. -/
def cnfFuel (h : Hand) : Nat := 40 * (h.summarize_tiles.sum + 2)

/-- The registers after the pair-head loop of `calc_normal_form`. -/
def cnfAcc1 (h : Hand) : Acc :=
  (List.range 34).foldl (fun acc i =>
    if 2 ≤ tget (cnfT3 h) i then
      normal_search (cnfFuel h) (.call 0) (cnfNInd h)
        (pushS2 ⟨cnfT3 h, [], [], [], []⟩ i) acc
    else acc) ⟨100, [], [], [], [], []⟩

/-- The final registers of `calc_normal_form`. -/
def cnfAcc2 (h : Hand) : Acc :=
  normal_search (cnfFuel h) (.call 0) (cnfNInd h)
    ⟨cnfT3 h, [], [], [], []⟩ (cnfAcc1 h)

set_option maxHeartbeats 2000000 in
theorem calc_normal_form_eq (h : Hand) :
    HandAnalyzer.calc_normal_form h =
      { shanten := (cnfAcc2 h).sh, form := .Normal,
        same3 := (cnfAcc2 h).rs3 ++ cnfInd3 h,
        sequential3 := (cnfAcc2 h).rq3 ++ cnfIndQ3 h,
        same2 := (cnfAcc2 h).rs2, sequential2 := (cnfAcc2 h).rq2,
        single := (cnfAcc2 h).rsingle ++ cnfIndS h } := by
  simp only [HandAnalyzer.calc_normal_form, cnfAcc2, cnfAcc1, cnfFuel, cnfNInd,
    cnfT3, cnfT2, cnfT1, cnfInd3, cnfIndQ3, cnfIndS]

theorem stAligned_base (t : TileSummarize) (ht : t.length = 34) :
    stAligned t ⟨t, [], [], [], []⟩ :=
  ⟨ht, fun k => by simp [stBlockCnt, seqCnt, q2Cnt]⟩

theorem searchPipeline_valid (t3 : TileSummarize) (nInd fuel : Nat)
    (ht : t3.length = 34) (hf : 1 ≤ fuel) :
    accValid nInd t3
      (normal_search fuel (.call 0) nInd ⟨t3, [], [], [], []⟩
        ((List.range 34).foldl (fun acc i =>
          if 2 ≤ tget t3 i then
            normal_search fuel (.call 0) nInd
              (pushS2 ⟨t3, [], [], [], []⟩ i) acc
          else acc) ⟨100, [], [], [], [], []⟩)) := by
  have hst := stAligned_base t3 ht
  have hacc1 : accOk nInd t3
      ((List.range 34).foldl (fun acc i =>
        if 2 ≤ tget t3 i then
          normal_search fuel (.call 0) nInd
            (pushS2 ⟨t3, [], [], [], []⟩ i) acc
        else acc) ⟨100, [], [], [], [], []⟩) := by
    refine foldl_preserve _ _ (List.range 34) _ (Or.inl rfl) ?_
    intro acc i _ hOk
    split_ifs with h2
    · exact normal_search_ok _ _ _ _ _ _ (stAligned_pushS2 hst h2) hOk
    · exact hOk
  obtain ⟨f, hfe⟩ : ∃ f, fuel = f + 1 := ⟨fuel - 1, by omega⟩
  rw [hfe] at hacc1 ⊢
  exact normal_search_call_valid f 0 _ _ _ _ hst hacc1

theorem cnfAcc2_valid (h : Hand) :
    accValid (cnfNInd h) (cnfT3 h) (cnfAcc2 h) := by
  have ht0 := summarize_tiles_length h
  have s1 := count_independent_same_3_spec h.summarize_tiles ht0
  have s2 := count_independent_sequential_3_spec _ s1.1
  have s3 := count_independent_single_spec _ s2.1
  have hlen3 : (cnfT3 h).length = 34 := s3.1
  unfold cnfAcc2 cnfAcc1
  exact searchPipeline_valid (cnfT3 h) (cnfNInd h) (cnfFuel h) hlen3
    (by unfold cnfFuel; omega)

end Mahjong

namespace Mahjong

/-- C2 counterexample: the hand `"111444777m111p45s"` analyses to
shanten −1 (winning) in Normal form, yet its one 2-block is the partial
sequence 4s–5s (`sequential2 = [(21, 22)]`) and not a pair
(`same2 = []`), refuting the claim that a winning Normal decomposition
has exactly one pair 2-block and zero partial blocks. -/
theorem claim_C2_counterexample :
    (HandAnalyzer.calc_normal_form
      (Hand.fromStr "111444777m111p45s")).shanten = -1 ∧
    (HandAnalyzer.calc_normal_form
      (Hand.fromStr "111444777m111p45s")).same2 = [] ∧
    (HandAnalyzer.calc_normal_form
      (Hand.fromStr "111444777m111p45s")).sequential2 = [(21, 22)] := by
  decide

/-- C2 (amended): every Normal-form analysis satisfies the decomposition
invariant — the multiset-union of its 3-blocks, 2-blocks, partial blocks
and leftover singletons equals the hand's 34-entry tile summary at every
index — and its shanten is exactly
`8 − 2·(|same3| + |sequential3|) − (|same2| + |sequential2|)`.  (The
original claim's stronger clause, that a winning hand's single 2-block
is a pair with no partials, is false: see the counterexample.) -/
theorem claim_C2 : ∀ h : Hand,
    (∀ k, analyzerBlockCnt (HandAnalyzer.calc_normal_form h) k =
        tget h.summarize_tiles k) ∧
    (HandAnalyzer.calc_normal_form h).shanten =
      8 - 2 * (((HandAnalyzer.calc_normal_form h).same3.length +
          (HandAnalyzer.calc_normal_form h).sequential3.length : Nat) : Int) -
        (((HandAnalyzer.calc_normal_form h).same2.length +
          (HandAnalyzer.calc_normal_form h).sequential2.length : Nat) : Int) := by
  intro h
  have hval := cnfAcc2_valid h
  have ht0 := summarize_tiles_length h
  have s1 := count_independent_same_3_spec h.summarize_tiles ht0
  have s2 := count_independent_sequential_3_spec _ s1.1
  have s3 := count_independent_single_spec _ s2.1
  rw [calc_normal_form_eq]
  constructor
  · intro k
    have c1 : tget h.summarize_tiles k =
        tget (cnfT1 h) k + 3 * (cnfInd3 h).count k := s1.2 k
    have c2 : tget (cnfT1 h) k =
        tget (cnfT2 h) k + seqCnt (cnfIndQ3 h) k := s2.2 k
    have c3 : tget (cnfT2 h) k =
        tget (cnfT3 h) k + (cnfIndS h).count k := s3.2 k
    have hb : accBlockCnt (cnfAcc2 h) k + (cnfAcc2 h).rsingle.count k =
        tget (cnfT3 h) k := hval.1 k
    simp only [accBlockCnt] at hb
    simp only [analyzerBlockCnt, List.count_append, seqCnt_append]
    omega
  · have hsh := hval.2
    simp only [List.length_append]
    rw [hsh]
    have hn : cnfNInd h = (cnfInd3 h).length + (cnfIndQ3 h).length := rfl
    rw [hn]
    push_cast
    ring

end Mahjong
